import Mathlib

/-!
Verification of the rendering core of the `rust-raytracer` repository.

The Rust source is shallowly embedded: `f64`/`f32` values become real
numbers, the scene data model becomes Lean structures, and every stochastic
draw (`rand::thread_rng`) becomes an explicit oracle argument.  The
recursive integrator `ray_color` can fail to terminate for adversarial
random streams (the light-sampling recursion re-enters itself with the same
depth budget), so it is embedded with an explicit fuel parameter and an
`Option` result, `none` standing for a computation that has not finished
within the given fuel.
-/

open scoped Classical

noncomputable section

/-- Largest finite `f64` value, `f64::MAX = (2^53 - 1) * 2^971`. -/
def f64MAX : ℝ := (2 ^ 53 - 1) * 2 ^ 971

/-- Machine epsilon for `f64`, `f64::EPSILON = 2^-52`. -/
def f64EPSILON : ℝ := 1 / 2 ^ 52

/-- `point3d.rs`: a 3-vector of `f64` components. -/
structure Point3D where
  x : ℝ
  y : ℝ
  z : ℝ

def Point3D.add (p q : Point3D) : Point3D := ⟨p.x + q.x, p.y + q.y, p.z + q.z⟩

def Point3D.sub (p q : Point3D) : Point3D := ⟨p.x - q.x, p.y - q.y, p.z - q.z⟩

def Point3D.negate (p : Point3D) : Point3D := ⟨-p.x, -p.y, -p.z⟩

def Point3D.smul (p : Point3D) (k : ℝ) : Point3D := ⟨p.x * k, p.y * k, p.z * k⟩

def Point3D.sdiv (p : Point3D) (k : ℝ) : Point3D := ⟨p.x / k, p.y / k, p.z / k⟩

instance : Add Point3D := ⟨Point3D.add⟩

instance : Sub Point3D := ⟨Point3D.sub⟩

instance : Neg Point3D := ⟨Point3D.negate⟩

instance : HMul Point3D ℝ Point3D := ⟨Point3D.smul⟩

instance : HDiv Point3D ℝ Point3D := ⟨Point3D.sdiv⟩

/-- `Point3D::dot`. -/
def Point3D.dot (p q : Point3D) : ℝ := p.x * q.x + p.y * q.y + p.z * q.z

/-- `Point3D::cross`. -/
def Point3D.cross (p q : Point3D) : Point3D :=
  ⟨p.y * q.z - p.z * q.y, p.z * q.x - p.x * q.z, p.x * q.y - p.y * q.x⟩

/-- `Point3D::length_squared`. -/
def Point3D.length_squared (p : Point3D) : ℝ := p.x * p.x + p.y * p.y + p.z * p.z

/-- `Point3D::distance`. -/
def Point3D.distance (p q : Point3D) : ℝ :=
  Real.sqrt ((p.x - q.x) * (p.x - q.x) + (p.y - q.y) * (p.y - q.y) + (p.z - q.z) * (p.z - q.z))

/-- `Point3D::length` is the distance to the origin. -/
def Point3D.length (p : Point3D) : ℝ := p.distance ⟨0, 0, 0⟩

/-- `Point3D::unit_vector`: componentwise division by the length. -/
def Point3D.unit_vector (p : Point3D) : Point3D :=
  ⟨p.x / p.length, p.y / p.length, p.z / p.length⟩

/-- `Point3D::near_zero`: all components below `f64::EPSILON` in magnitude. -/
def Point3D.near_zero (p : Point3D) : Prop :=
  |p.x| < f64EPSILON ∧ |p.y| < f64EPSILON ∧ |p.z| < f64EPSILON

/-- `ray.rs`: a ray with origin and (not necessarily unit) direction. -/
structure Ray where
  origin : Point3D
  direction : Point3D

/-- `Ray::at`. -/
def Ray.at (r : Ray) (t : ℝ) : Point3D := r.origin + r.direction * t

/-- An `Srgb` color value (three `f32` channels, idealized as reals). -/
structure Color where
  red : ℝ
  green : ℝ
  blue : ℝ

/-- `materials.rs`: the Lambertian (diffuse) material. -/
structure Lambertian where
  albedo : Color

/-- `materials.rs`: the fuzzy metal material. -/
structure Metal where
  albedo : Color
  fuzz : ℝ

/-- `materials.rs`: the dielectric material. -/
structure Glass where
  index_of_refraction : ℝ

/-- `materials.rs`: the textured diffuse material, with a pre-decoded RGB
byte buffer in row-major order. -/
structure Texture where
  albedo : Color
  pixels : List ℕ
  width : ℕ
  height : ℕ
  h_offset : ℝ

/-- `materials.rs`: the closed set of material variants (`Light` carries no
data). -/
inductive Material where
  | Lambertian (l : Lambertian)
  | Metal (m : Metal)
  | Glass (g : Glass)
  | Texture (t : Texture)
  | Light

/-- `ray.rs`: the result of a successful intersection. -/
structure HitRecord where
  t : ℝ
  point : Point3D
  normal : Point3D
  front_face : Bool
  material : Material
  u : ℝ
  v : ℝ

/-- `sphere.rs`: a sphere with a material. -/
structure Sphere where
  center : Point3D
  radius : ℝ
  material : Material

/-- `sphere.rs`: equirectangular surface parameterization of a point on the
sphere (`u_v_from_sphere_hit_point`), via `f64::atan2`. -/
def atan2 (y x : ℝ) : ℝ :=
  if 0 < x then Real.arctan (y / x)
  else if x < 0 then
    (if 0 ≤ y then Real.arctan (y / x) + Real.pi else Real.arctan (y / x) - Real.pi)
  else (if 0 < y then Real.pi / 2 else if y < 0 then -(Real.pi / 2) else 0)

def u_v_from_sphere_hit_point (hit_point_on_sphere : Point3D) : ℝ × ℝ :=
  let n := hit_point_on_sphere.unit_vector
  let u := atan2 n.x n.z / (2 * Real.pi) + 0.5
  let v := n.y * 0.5 + 0.5
  (u, v)

/-- The hit record `Sphere::hit` builds once a root has been accepted. -/
def Sphere.recordAt (s : Sphere) (ray : Ray) (root : ℝ) : HitRecord :=
  let p := ray.at root
  let normal := (p - s.center) / s.radius
  let front_face : Bool := decide (ray.direction.dot normal < 0)
  let uv := u_v_from_sphere_hit_point (p - s.center)
  { t := root, point := p
    normal := if front_face then normal else -normal
    front_face := front_face, material := s.material, u := uv.1, v := uv.2 }

/-- One iteration of the root-acceptance loop in `Sphere::hit`: accept the
root iff it lies strictly inside `(t_min, t_max)`. -/
def hitAtRoot (s : Sphere) (ray : Ray) (t_min t_max root : ℝ) : Option HitRecord :=
  if root < t_max ∧ root > t_min then some (s.recordAt ray root) else none

/-- The `half_b` coefficient of the sphere quadratic in `Sphere::hit`. -/
def Sphere.halfB (s : Sphere) (ray : Ray) : ℝ :=
  (ray.origin - s.center).dot ray.direction

/-- The discriminant `half_b * half_b - a * c` in `Sphere::hit`. -/
def Sphere.disc (s : Sphere) (ray : Ray) : ℝ :=
  s.halfB ray * s.halfB ray -
    ray.direction.length_squared *
      ((ray.origin - s.center).length_squared - s.radius * s.radius)

/-- The root `(-half_b - sqrt(discriminant)) / a` in `Sphere::hit`. -/
def Sphere.rootA (s : Sphere) (ray : Ray) : ℝ :=
  (-s.halfB ray - Real.sqrt (s.disc ray)) / ray.direction.length_squared

/-- The root `(-half_b + sqrt(discriminant)) / a` in `Sphere::hit`. -/
def Sphere.rootB (s : Sphere) (ray : Ray) : ℝ :=
  (-s.halfB ray + Real.sqrt (s.disc ray)) / ray.direction.length_squared

/-- `Sphere::hit`: solve the quadratic, then try the two roots in the order
`root_a`, `root_b`, returning the first accepted one. -/
def Sphere.hit (s : Sphere) (ray : Ray) (t_min t_max : ℝ) : Option HitRecord :=
  if 0 ≤ s.disc ray then
    match hitAtRoot s ray t_min t_max (s.rootA ray) with
    | some h => some h
    | none => hitAtRoot s ray t_min t_max (s.rootB ray)
  else none

/-- The fold inside `hit_world` (`raytracer.rs`): scan the object list,
shrinking `closest_so_far` on every accepted hit. -/
def hitWorldAux : List Sphere → Ray → ℝ → ℝ → Option HitRecord → Option HitRecord
  | [], _, _, _, acc => acc
  | s :: rest, r, t_min, closest, acc =>
    match s.hit r t_min closest with
    | some h => hitWorldAux rest r t_min h.t (some h)
    | none => hitWorldAux rest r t_min closest acc

/-- `hit_world` (`raytracer.rs`). -/
def hit_world (world : List Sphere) (r : Ray) (t_min t_max : ℝ) : Option HitRecord :=
  hitWorldAux world r t_min t_max none

/-- `clamp` (`raytracer.rs`): clamp an `f32` channel to `[0, 1]`. -/
def clamp (value : ℝ) : ℝ :=
  if value < 0 then 0 else if value > 1 then 1 else value

/-- `reflect` (`materials.rs`). -/
def reflect (v n : Point3D) : Point3D := v - n * (2 * v.dot n)

/-- `refract` (`materials.rs`): the two-term refraction formula. -/
def refract (uv n : Point3D) (etai_over_etat : ℝ) : Point3D :=
  let cos_theta := min ((-uv).dot n) 1
  let r_out_perp := (uv + n * cos_theta) * etai_over_etat
  let r_out_parallel := n * (-1 * Real.sqrt |1 - r_out_perp.length_squared|)
  r_out_perp + r_out_parallel

/-- `reflectance` (`materials.rs`): Schlick's approximation. -/
def reflectance (cosine ref_idx : ℝ) : ℝ :=
  let r0 := ((1 - ref_idx) / (1 + ref_idx)) * ((1 - ref_idx) / (1 + ref_idx))
  r0 + (1 - r0) * (1 - cosine) ^ 5

/-- `Lambertian::scatter`.  `rp` stands for the draw of
`Point3D::random_in_unit_sphere()`. -/
def Lambertian.scatter (l : Lambertian) (hit_record : HitRecord) (rp : Point3D) :
    Option (Option Ray × Color) :=
  let sd := hit_record.normal + rp
  let scatter_direction := if sd.near_zero then hit_record.normal else sd
  let target := hit_record.point + scatter_direction
  some (some ⟨hit_record.point, target - hit_record.point⟩, l.albedo)

/-- `Metal::scatter`. -/
def Metal.scatter (m : Metal) (ray : Ray) (hit_record : HitRecord) (rp : Point3D) :
    Option (Option Ray × Color) :=
  let reflected := reflect ray.direction hit_record.normal
  let scattered : Ray := ⟨hit_record.point, reflected + rp * m.fuzz⟩
  if scattered.direction.dot hit_record.normal > 0 then
    some (some scattered, m.albedo)
  else none

/-- `Glass::scatter`.  `rd` stands for the uniform draw `rng.gen::<f64>()`. -/
def Glass.scatter (g : Glass) (ray : Ray) (hit_record : HitRecord) (rd : ℝ) :
    Option (Option Ray × Color) :=
  let attenuation : Color := ⟨1, 1, 1⟩
  let refraction_ratio :=
    if hit_record.front_face then 1 / g.index_of_refraction else g.index_of_refraction
  let unit_direction := ray.direction.unit_vector
  let cos_theta := min ((-unit_direction).dot hit_record.normal) 1
  let sin_theta := Real.sqrt (1 - cos_theta * cos_theta)
  let cannot_refract := refraction_ratio * sin_theta > 1
  if cannot_refract ∨ reflectance cos_theta refraction_ratio > rd then
    some (some ⟨hit_record.point, reflect unit_direction hit_record.normal⟩, attenuation)
  else
    some (some ⟨hit_record.point, refract unit_direction hit_record.normal refraction_ratio⟩,
      attenuation)

/-- `Texture::get_albedo`: nearest-pixel lookup in the pre-decoded buffer.
The byte fetches `self.pixels[i]` are modelled with `List.getD`, matching
the in-bounds behavior of the Rust indexing. -/
def Texture.get_albedo (t : Texture) (u v : ℝ) : Color :=
  let rot0 := u + t.h_offset
  let rot := if rot0 > 1 then rot0 - 1 else rot0
  let uu := rot * (t.width : ℝ)
  let vv := (1 - v) * ((t.height - 1 : ℕ) : ℝ)
  let base_pixel := 3 * (Int.toNat ⌊vv⌋ * t.width + Int.toNat ⌊uu⌋)
  ⟨(t.pixels.getD base_pixel 0 : ℝ) / 255,
   (t.pixels.getD (base_pixel + 1) 0 : ℝ) / 255,
   (t.pixels.getD (base_pixel + 2) 0 : ℝ) / 255⟩

/-- `Texture::scatter`: same geometry as `Lambertian::scatter`, attenuation
from the texture lookup. -/
def Texture.scatter (t : Texture) (hit_record : HitRecord) (rp : Point3D) :
    Option (Option Ray × Color) :=
  let sd := hit_record.normal + rp
  let scatter_direction := if sd.near_zero then hit_record.normal else sd
  let target := hit_record.point + scatter_direction
  some (some ⟨hit_record.point, target - hit_record.point⟩,
    t.get_albedo hit_record.u hit_record.v)

/-- `Light::scatter`: a terminal emitter, white attenuation and no
continuing ray. -/
def Light.scatter : Option (Option Ray × Color) := some (none, ⟨1, 1, 1⟩)

/-- `Material::scatter` dispatch.  `rp` is the unit-sphere draw used by the
diffuse and metal branches, `rd` the uniform draw used by the glass
branch. -/
def Material.scatter (m : Material) (ray : Ray) (hit_record : HitRecord)
    (rp : Point3D) (rd : ℝ) : Option (Option Ray × Color) :=
  match m with
  | .Lambertian l => l.scatter hit_record rp
  | .Metal mt => mt.scatter ray hit_record rp
  | .Glass g => g.scatter ray hit_record rd
  | .Texture t => t.scatter hit_record rp
  | .Light => Light.scatter

/-- `camera.rs`: the derived camera frame (computed fields only). -/
structure Camera where
  origin : Point3D
  lower_left_corner : Point3D
  focal_length : ℝ
  horizontal : Point3D
  vertical : Point3D

/-- `Camera::new`. -/
def Camera.new (look_from look_at vup : Point3D) (vfov aspect : ℝ) : Camera :=
  let theta := vfov * Real.pi / 180
  let half_height := Real.tan (theta / 2)
  let half_width := aspect * half_height
  let w := (look_from - look_at).unit_vector
  let u := (vup.cross w).unit_vector
  let v := w.cross u
  let origin := look_from
  { origin := origin
    lower_left_corner := origin - u * half_width - v * half_height - w
    focal_length := (look_from - look_at).length
    horizontal := u * (2 : ℝ) * half_width
    vertical := v * (2 : ℝ) * half_height }

/-- `Camera::get_ray`. -/
def Camera.get_ray (c : Camera) (u v : ℝ) : Ray :=
  ⟨c.origin, c.lower_left_corner + c.horizontal * u + c.vertical * v - c.origin⟩

/-- `config.rs`: the optional sky, with an optional equirectangular texture
`(pixels, width, height)`. -/
structure Sky where
  texture : Option (List ℕ × ℕ × ℕ)

/-- `config.rs`: the scene configuration. -/
structure Config where
  width : ℕ
  height : ℕ
  samples_per_pixel : ℕ
  max_depth : ℕ
  sky : Option Sky
  camera : Camera
  objects : List Sphere

/-- The random oracle threaded through the embedded renderer: each field
supplies the value of one kind of `rand` draw, indexed by the recursion
path (for `ray_color`) or by pixel and sample (for the jitter draws of
`render_line`). -/
structure Rng where
  gate : List ℕ → ℝ
  sphere : List ℕ → Point3D
  mat : List ℕ → ℝ
  j1 : ℕ → ℕ → ℕ → ℝ
  j2 : ℕ → ℕ → ℕ → ℝ

/-- Sequence a list of fallible computations, failing if any element
fails. -/
def seqMap {α β : Type} (f : α → Option β) : List α → Option (List β)
  | [] => some []
  | a :: as =>
    match f a, seqMap f as with
    | some b, some bs => some (b :: bs)
    | _, _ => none

/-- The light-sampling probability in `ray_color`: `0.05` for glass hits,
`0.1` otherwise. -/
def glassProb (m : Material) : ℝ :=
  match m with
  | .Glass _ => 0.05
  | _ => 0.1

/-- The no-hit branch of `ray_color`: gradient sky, texture sky, or
black. -/
def skyColor (scene : Config) (ray : Ray) : Color :=
  let t := clamp (0.5 * (ray.direction.unit_vector.y + 1))
  let u := clamp (0.5 * (ray.direction.unit_vector.x + 1))
  match scene.sky with
  | none => ⟨0, 0, 0⟩
  | some sky =>
    match sky.texture with
    | none => ⟨(1 - t) * 1 + t * 0.5, (1 - t) * 1 + t * 0.7, (1 - t) * 1 + t * 1.0⟩
    | some (pixels, width, height) =>
      let x := Int.toNat ⌊u * ((width - 1 : ℕ) : ℝ)⌋
      let y := Int.toNat ⌊(1 - t) * ((height - 1 : ℕ) : ℝ)⌋
      ⟨0.7 * (pixels.getD ((y * width + x) * 3) 0 : ℝ) / 255,
       0.7 * (pixels.getD ((y * width + x) * 3 + 1) 0 : ℝ) / 255,
       0.7 * (pixels.getD ((y * width + x) * 3 + 2) 0 : ℝ) / 255⟩

/-- `ray_color` (`raytracer.rs`), with explicit fuel.  `none` models a
computation that has not terminated within the fuel bound; every branch of
the Rust function is reproduced, with the `depth > max_depth - 2` guard
taken over truncated natural subtraction. -/
def rayColor : ℕ → Ray → Config → List Sphere → ℕ → ℕ → Rng → List ℕ → Option Color
  | 0, _, _, _, _, _, _, _ => none
  | fuel + 1, ray, scene, lights, max_depth, depth, rng, path =>
    if depth ≤ 0 then some ⟨0, 0, 0⟩ else
      match hit_world scene.objects ray 0.001 f64MAX with
      | none => some (skyColor scene ray)
      | some hit_record =>
        match hit_record.material.scatter ray hit_record (rng.sphere path) (rng.mat path) with
        | none => some ⟨0, 0, 0⟩
        | some (scattered_ray, albedo) =>
          let prob : ℝ := glassProb hit_record.material
          if 0 < lights.length ∧
              rng.gate path > 1 - (lights.length : ℝ) * prob ∧ max_depth - 2 < depth then
            match seqMap
                (fun il => rayColor fuel ⟨hit_record.point, il.2.center - hit_record.point⟩
                  scene lights 2 1 rng (path ++ [il.1 + 1])) lights.enum with
            | none => none
            | some lcs =>
              let light_red := (lcs.map fun c => albedo.red * c.red).sum / (lights.length : ℝ)
              let light_green :=
                (lcs.map fun c => albedo.green * c.green).sum / (lights.length : ℝ)
              let light_blue :=
                (lcs.map fun c => albedo.blue * c.blue).sum / (lights.length : ℝ)
              match scattered_ray with
              | some sr =>
                match rayColor fuel sr scene lights max_depth (depth - 1) rng (path ++ [0]) with
                | none => none
                | some tc =>
                  some ⟨clamp (light_red + albedo.red * tc.red),
                        clamp (light_green + albedo.green * tc.green),
                        clamp (light_blue + albedo.blue * tc.blue)⟩
              | none => some albedo
          else
            match scattered_ray with
            | some sr =>
              match rayColor fuel sr scene lights max_depth (depth - 1) rng (path ++ [0]) with
              | none => none
              | some tc =>
                some ⟨clamp (0 + albedo.red * tc.red),
                      clamp (0 + albedo.green * tc.green),
                      clamp (0 + albedo.blue * tc.blue)⟩
            | none => some albedo

/-- `find_lights` (`raytracer.rs`). -/
def find_lights (world : List Sphere) : List Sphere :=
  world.filter fun s =>
    match s.material with
    | .Light => true
    | _ => false

/-- Conversion of an `f32` channel in `[0,1]` to an 8-bit value
(`color.into_format().into_raw()`): scale by 255, round, saturate. -/
def u8ofReal (v : ℝ) : ℕ := min 255 (Int.toNat ⌊v * 255 + 1 / 2⌋)

/-- The per-pixel loop body of `render_line`: draw `samples_per_pixel`
jittered camera rays, average, gamma-correct, convert to bytes. -/
def pixelBytes (scene : Config) (lights : List Sphere) (fuel : ℕ) (rng : Rng)
    (x y : ℕ) : Option (List ℕ) :=
  match seqMap
      (fun s =>
        let u := ((x : ℝ) + rng.j1 x y s) / ((scene.width : ℝ) - 1)
        let v := ((scene.height : ℝ) - ((y : ℝ) + rng.j2 x y s)) / ((scene.height : ℝ) - 1)
        rayColor fuel (scene.camera.get_ray u v) scene lights
          scene.max_depth scene.max_depth rng [x, y, s])
      (List.range scene.samples_per_pixel) with
  | none => none
  | some cs =>
    let scale : ℝ := 1 / (scene.samples_per_pixel : ℝ)
    some [u8ofReal (Real.sqrt (scale * (cs.map Color.red).sum)),
          u8ofReal (Real.sqrt (scale * (cs.map Color.green).sum)),
          u8ofReal (Real.sqrt (scale * (cs.map Color.blue).sum))]

/-- One scanline band of `render`: the pixel byte triples of row `y`, left
to right. -/
def renderRow (scene : Config) (lights : List Sphere) (fuel : ℕ) (rng : Rng)
    (y : ℕ) : Option (List (List ℕ)) :=
  seqMap (fun x => pixelBytes scene lights fuel rng x y) (List.range scene.width)

/-- `render` (`raytracer.rs`): the finished pixel buffer, rows concatenated
top to bottom. -/
def render (scene : Config) (fuel : ℕ) (rng : Rng) : Option (List ℕ) :=
  match seqMap
      (fun y => (renderRow scene (find_lights scene.objects) fuel rng y).map List.flatten)
      (List.range scene.height) with
  | none => none
  | some rows => some rows.flatten

/-! ### Concrete fixtures used by witnesses and counterexamples -/

/-- A unit sphere at the origin with a gray diffuse material, as in the
`test_sphere_hit` scenario. -/
def testSphere : Sphere := ⟨⟨0, 0, 0⟩, 1, .Lambertian ⟨⟨0.5, 0.5, 0.5⟩⟩⟩

/-- The ray of the `test_sphere_hit` scenario: origin `(0,0,-5)`, direction
`(0,0,1)`. -/
def testRay : Ray := ⟨⟨0, 0, -5⟩, ⟨0, 0, 1⟩⟩

/-- A hit record used to exercise the scatter functions. -/
def hrTest : HitRecord :=
  ⟨4, ⟨1, 2, 3⟩, ⟨0, 1, 0⟩, true, .Lambertian ⟨⟨0.5, 0.5, 0.5⟩⟩, 0, 0⟩

/-- A constant random oracle. -/
def rng0 : Rng := ⟨fun _ => 0, fun _ => ⟨0, 0, 0⟩, fun _ => 0, fun _ _ _ => 0, fun _ _ _ => 0⟩

/-- A sharp metal sample used to exercise `Metal::scatter`. -/
def metalTest : Metal := ⟨⟨0.5, 0.5, 0.5⟩, 0⟩

/-- A downward ray hitting `hrTest` head on. -/
def rayDown : Ray := ⟨⟨0, 0, 0⟩, ⟨0, -1, 0⟩⟩

/-- A 2x2 texture with twelve distinct bytes and no horizontal offset. -/
def texTest : Texture :=
  ⟨⟨1, 1, 1⟩, [10, 20, 30, 40, 50, 60, 70, 80, 90, 100, 110, 120], 2, 2, 0⟩

/-- The texture lookup as the specification words it, for comparison with
`Texture.get_albedo`: the rotated coordinate is `(u + h_offset) mod 1`
(true fractional part), the texel is the one at column
`floor(rotate(u) * width)` and row `floor((1-v) * (height-1))`, each 8-bit
channel divided by 255. -/
def claimedGetAlbedo (t : Texture) (u v : ℝ) : Color :=
  let rot := Int.fract (u + t.h_offset)
  let column := Int.toNat ⌊rot * (t.width : ℝ)⌋
  let row := Int.toNat ⌊(1 - v) * ((t.height - 1 : ℕ) : ℝ)⌋
  ⟨(t.pixels.getD (3 * (row * t.width + column)) 0 : ℝ) / 255,
   (t.pixels.getD (3 * (row * t.width + column) + 1) 0 : ℝ) / 255,
   (t.pixels.getD (3 * (row * t.width + column) + 2) 0 : ℝ) / 255⟩

/-- The empty scene of the `test_ray_color` scenario, with the default
gradient sky. -/
def emptyScene : Config :=
  ⟨80, 60, 1, 2, some ⟨none⟩,
    Camera.new ⟨0, 0, -3⟩ ⟨0, 0, 0⟩ ⟨0, 1, 0⟩ 20 1.333, []⟩

/-- An empty scene whose sky is a 3x1 equirectangular texture with nine
distinct bytes. -/
def skyTexScene : Config :=
  ⟨80, 60, 1, 2, some ⟨some ([10, 20, 30, 40, 50, 60, 70, 80, 90], 3, 1)⟩,
    Camera.new ⟨0, 0, -3⟩ ⟨0, 0, 0⟩ ⟨0, 1, 0⟩ 20 1.333, []⟩

/-- A ray looking straight along the negative `z` axis. -/
def rayBack : Ray := ⟨⟨0, 0, 0⟩, ⟨0, 0, -1⟩⟩

/-- The single diffuse sphere of the end-to-end render scenario. -/
def sphereC8 : Sphere := ⟨⟨0, 0, -1⟩, 0.5, .Lambertian ⟨⟨0.8, 0.3, 0.3⟩⟩⟩

/-- The 100x100, one-sample, depth-1 end-to-end render scenario. -/
def scene100 : Config :=
  ⟨100, 100, 1, 1, some ⟨none⟩,
    Camera.new ⟨0, 0, 0⟩ ⟨0, 0, -1⟩ ⟨0, 1, 0⟩ 90 1, [sphereC8]⟩

/-- The hit record produced by the test ray on the test sphere. -/
def hrT4 : HitRecord := testSphere.recordAt testRay 4

/-- A one-sphere scene with the default sky. -/
def sceneOne : Config :=
  ⟨100, 100, 1, 5, some ⟨none⟩,
    Camera.new ⟨0, 0, 0⟩ ⟨0, 0, -1⟩ ⟨0, 1, 0⟩ 90 1, [testSphere]⟩

/-- The sky lookup as the specification words it, for comparison with
`skyColor`: on a configured equirectangular sky texture the texel is
selected from the ray direction's polar angle, i.e. through the same
atan2-based `u_v_from_sphere_hit_point` mapping as the sphere surface
parameterization, scaled by the fixed `0.7` factor. -/
def claimedSkyColor (scene : Config) (ray : Ray) : Color :=
  match scene.sky with
  | none => ⟨0, 0, 0⟩
  | some sky =>
    match sky.texture with
    | none =>
      let t := clamp (0.5 * (ray.direction.unit_vector.y + 1))
      ⟨(1 - t) * 1 + t * 0.5, (1 - t) * 1 + t * 0.7, (1 - t) * 1 + t * 1.0⟩
    | some (pixels, width, height) =>
      let uv := u_v_from_sphere_hit_point ray.direction
      let x := Int.toNat ⌊uv.1 * ((width - 1 : ℕ) : ℝ)⌋
      let y := Int.toNat ⌊(1 - uv.2) * ((height - 1 : ℕ) : ℝ)⌋
      ⟨0.7 * (pixels.getD ((y * width + x) * 3) 0 : ℝ) / 255,
       0.7 * (pixels.getD ((y * width + x) * 3 + 1) 0 : ℝ) / 255,
       0.7 * (pixels.getD ((y * width + x) * 3 + 2) 0 : ℝ) / 255⟩

/-! ### Lemmas and theorems -/

theorem Point3D.add_x (p q : Point3D) : (p + q).x = p.x + q.x := rfl

theorem Point3D.add_y (p q : Point3D) : (p + q).y = p.y + q.y := rfl

theorem Point3D.add_z (p q : Point3D) : (p + q).z = p.z + q.z := rfl

theorem Point3D.sub_x (p q : Point3D) : (p - q).x = p.x - q.x := rfl

theorem Point3D.sub_y (p q : Point3D) : (p - q).y = p.y - q.y := rfl

theorem Point3D.sub_z (p q : Point3D) : (p - q).z = p.z - q.z := rfl

theorem Point3D.neg_x (p : Point3D) : (-p).x = -p.x := rfl

theorem Point3D.neg_y (p : Point3D) : (-p).y = -p.y := rfl

theorem Point3D.neg_z (p : Point3D) : (-p).z = -p.z := rfl

theorem Point3D.smul_x (p : Point3D) (k : ℝ) : (p * k).x = p.x * k := rfl

theorem Point3D.smul_y (p : Point3D) (k : ℝ) : (p * k).y = p.y * k := rfl

theorem Point3D.smul_z (p : Point3D) (k : ℝ) : (p * k).z = p.z * k := rfl

theorem Point3D.sdiv_x (p : Point3D) (k : ℝ) : (p / k).x = p.x / k := rfl

theorem Point3D.sdiv_y (p : Point3D) (k : ℝ) : (p / k).y = p.y / k := rfl

theorem Point3D.sdiv_z (p : Point3D) (k : ℝ) : (p / k).z = p.z / k := rfl

attribute [simp] Point3D.add_x Point3D.add_y Point3D.add_z Point3D.sub_x Point3D.sub_y
  Point3D.sub_z Point3D.neg_x Point3D.neg_y Point3D.neg_z Point3D.smul_x Point3D.smul_y
  Point3D.smul_z Point3D.sdiv_x Point3D.sdiv_y Point3D.sdiv_z

theorem Point3D.dot_neg (p q : Point3D) : p.dot (-q) = -(p.dot q) := by
  simp only [Point3D.dot, Point3D.neg_x, Point3D.neg_y, Point3D.neg_z]
  ring

theorem Point3D.add_mk (a b c d e f : ℝ) :
    ((⟨a, b, c⟩ : Point3D) + ⟨d, e, f⟩) = ⟨a + d, b + e, c + f⟩ := rfl

theorem Point3D.sub_mk (a b c d e f : ℝ) :
    ((⟨a, b, c⟩ : Point3D) - ⟨d, e, f⟩) = ⟨a - d, b - e, c - f⟩ := rfl

theorem Point3D.neg_mk (a b c : ℝ) : (-(⟨a, b, c⟩ : Point3D)) = ⟨-a, -b, -c⟩ := rfl

theorem Point3D.smul_mk (a b c k : ℝ) : ((⟨a, b, c⟩ : Point3D) * k) = ⟨a * k, b * k, c * k⟩ := rfl

theorem Point3D.sdiv_mk (a b c k : ℝ) : ((⟨a, b, c⟩ : Point3D) / k) = ⟨a / k, b / k, c / k⟩ := rfl

theorem Point3D.dot_mk (a b c d e f : ℝ) :
    Point3D.dot ⟨a, b, c⟩ ⟨d, e, f⟩ = a * d + b * e + c * f := rfl

attribute [simp] Point3D.add_mk Point3D.sub_mk Point3D.neg_mk Point3D.smul_mk
  Point3D.sdiv_mk Point3D.dot_mk

theorem Sphere.recordAt_t (s : Sphere) (ray : Ray) (root : ℝ) :
    (s.recordAt ray root).t = root := rfl

theorem Sphere.recordAt_point (s : Sphere) (ray : Ray) (root : ℝ) :
    (s.recordAt ray root).point = ray.at root := rfl

/-- Characterization of `Sphere::hit` as a root selection. -/
theorem Sphere.hit_char (s : Sphere) (ray : Ray) (t_min t_max : ℝ) :
    s.hit ray t_min t_max =
      if 0 ≤ s.disc ray then
        if s.rootA ray < t_max ∧ s.rootA ray > t_min then
          some (s.recordAt ray (s.rootA ray))
        else if s.rootB ray < t_max ∧ s.rootB ray > t_min then
          some (s.recordAt ray (s.rootB ray))
        else none
      else none := by
  by_cases hd : 0 ≤ s.disc ray
  · by_cases hA : s.rootA ray < t_max ∧ s.rootA ray > t_min
    · simp [Sphere.hit, hitAtRoot, hd, hA]
    · by_cases hB : s.rootB ray < t_max ∧ s.rootB ray > t_min
      · simp [Sphere.hit, hitAtRoot, hd, hA, hB]
      · simp [Sphere.hit, hitAtRoot, hd, hA, hB]
  · simp [Sphere.hit, hd]

/-- A successful hit is the record at one of the two roots, the nearer root
taking priority. -/
theorem Sphere.hit_cases {s : Sphere} {ray : Ray} {t_min t_max : ℝ} {h : HitRecord}
    (hh : s.hit ray t_min t_max = some h) :
    0 ≤ s.disc ray ∧
      ((h = s.recordAt ray (s.rootA ray) ∧ s.rootA ray < t_max ∧ s.rootA ray > t_min) ∨
        (h = s.recordAt ray (s.rootB ray) ∧ (s.rootB ray < t_max ∧ s.rootB ray > t_min) ∧
          ¬(s.rootA ray < t_max ∧ s.rootA ray > t_min))) := by
  rw [Sphere.hit_char] at hh
  by_cases hd : 0 ≤ s.disc ray
  · refine ⟨hd, ?_⟩
    rw [if_pos hd] at hh
    by_cases hA : s.rootA ray < t_max ∧ s.rootA ray > t_min
    · rw [if_pos hA] at hh
      exact Or.inl ⟨(Option.some_injective _ hh).symm, hA⟩
    · rw [if_neg hA] at hh
      by_cases hB : s.rootB ray < t_max ∧ s.rootB ray > t_min
      · rw [if_pos hB] at hh
        exact Or.inr ⟨(Option.some_injective _ hh).symm, hB, hA⟩
      · rw [if_neg hB] at hh
        exact absurd hh (by simp)
  · rw [if_neg hd] at hh
    exact absurd hh (by simp)

/-- The parameter of a returned hit lies strictly inside the bounds. -/
theorem Sphere.hit_t_between {s : Sphere} {ray : Ray} {t_min t_max : ℝ} {h : HitRecord}
    (hh : s.hit ray t_min t_max = some h) : t_min < h.t ∧ h.t < t_max := by
  obtain ⟨-, hcase⟩ := Sphere.hit_cases hh
  rcases hcase with ⟨rfl, h1, h2⟩ | ⟨rfl, ⟨h1, h2⟩, -⟩ <;>
    exact ⟨by simpa [Sphere.recordAt_t] using h2, by simpa [Sphere.recordAt_t] using h1⟩

/-- The three normal-orientation facts, proved for the record built at any
root. -/
theorem Sphere.recordAt_normal_props (s : Sphere) (ray : Ray) (root : ℝ) :
    ((s.recordAt ray root).front_face = true ↔
      ray.direction.dot (((s.recordAt ray root).point - s.center) / s.radius) < 0) ∧
    (s.recordAt ray root).normal =
      (if ray.direction.dot (((s.recordAt ray root).point - s.center) / s.radius) < 0
        then ((s.recordAt ray root).point - s.center) / s.radius
        else -(((s.recordAt ray root).point - s.center) / s.radius)) ∧
    ray.direction.dot (s.recordAt ray root).normal ≤ 0 := by
  have hpoint : (s.recordAt ray root).point = ray.at root := rfl
  rw [hpoint]
  by_cases hlt : ray.direction.dot ((ray.at root - s.center) / s.radius) < 0
  · have hff : (s.recordAt ray root).front_face = true := by
      simp [Sphere.recordAt, hlt]
    have hn : (s.recordAt ray root).normal = (ray.at root - s.center) / s.radius := by
      simp [Sphere.recordAt, hlt]
    exact ⟨by simp [hff, hlt], by rw [hn, if_pos hlt], by rw [hn]; exact le_of_lt hlt⟩
  · have hff : (s.recordAt ray root).front_face = false := by
      simp [Sphere.recordAt, hlt]
    have hn : (s.recordAt ray root).normal = -((ray.at root - s.center) / s.radius) := by
      simp [Sphere.recordAt, hlt]
    refine ⟨by simp [hff, hlt], by rw [hn, if_neg hlt], ?_⟩
    rw [hn, Point3D.dot_neg]
    linarith [not_lt.mp hlt]

/-- C2: whenever `Sphere::hit` returns a record, the raw normal is
`(point - center) / radius`, `front_face` holds exactly when the ray
direction has negative dot product with the raw normal, the stored normal
is the raw normal on a front face and its negation otherwise, and the
stored normal never points along the ray:
`dot(ray.direction, normal) <= 0`. -/
theorem C2_normal_orientation :
    ∀ (s : Sphere) (ray : Ray) (t_min t_max : ℝ) (h : HitRecord),
      s.hit ray t_min t_max = some h →
      ((h.front_face = true ↔ ray.direction.dot ((h.point - s.center) / s.radius) < 0) ∧
        h.normal =
          (if ray.direction.dot ((h.point - s.center) / s.radius) < 0
            then (h.point - s.center) / s.radius
            else -((h.point - s.center) / s.radius)) ∧
        ray.direction.dot h.normal ≤ 0) := by
  intro s ray t_min t_max h hh
  obtain ⟨-, hcase⟩ := Sphere.hit_cases hh
  rcases hcase with ⟨rfl, -⟩ | ⟨rfl, -, -⟩ <;> exact Sphere.recordAt_normal_props s ray _

/-- The discriminant of the test configuration. -/
theorem testSphere_disc : testSphere.disc testRay = 1 := by
  norm_num [Sphere.disc, Sphere.halfB, testSphere, testRay, Point3D.dot,
    Point3D.length_squared]

theorem testSphere_halfB : testSphere.halfB testRay = -5 := by
  norm_num [Sphere.halfB, testSphere, testRay, Point3D.dot]

theorem testRay_a : testRay.direction.length_squared = 1 := by
  simp [Point3D.length_squared, testRay]

theorem testSphere_rootA : testSphere.rootA testRay = 4 := by
  rw [Sphere.rootA, testSphere_halfB, testSphere_disc, testRay_a, Real.sqrt_one]
  norm_num

theorem testSphere_rootB : testSphere.rootB testRay = 6 := by
  rw [Sphere.rootB, testSphere_halfB, testSphere_disc, testRay_a, Real.sqrt_one]
  norm_num

/-- The `test_sphere_hit` scenario: a hit at parameter `4`. -/
theorem testSphere_hit : testSphere.hit testRay 0 100 = some (testSphere.recordAt testRay 4) := by
  rw [Sphere.hit_char, testSphere_disc, testSphere_rootA]
  rw [if_pos (by norm_num : (0 : ℝ) ≤ 1)]
  rw [if_pos (by constructor <;> norm_num : (4 : ℝ) < 100 ∧ (4 : ℝ) > 0)]

/-- Witness for C2 at the concrete test hit. -/
theorem C2_witness : testRay.direction.dot ((testSphere.recordAt testRay 4).normal) ≤ 0 :=
  (C2_normal_orientation testSphere testRay 0 100 _ testSphere_hit).2.2

/-- C4: `Glass::scatter` always continues with a white attenuation; it
reflects the unit incoming direction exactly when total internal reflection
occurs (`ratio * sin_theta > 1`) or the Schlick reflectance
`r0 + (1-r0)*(1-cos_theta)^5`, `r0 = ((1-ratio)/(1+ratio))^2`, exceeds the
uniform draw, and refracts with the two-term formula otherwise; the ratio
is `1/ior` on a front face and `ior` otherwise. -/
theorem C4_glass_scatter :
    ∀ (g : Glass) (ray : Ray) (hr : HitRecord) (rd : ℝ),
      g.scatter ray hr rd =
        (let refraction_ratio :=
          if hr.front_face then 1 / g.index_of_refraction else g.index_of_refraction
        let unit_direction := ray.direction.unit_vector
        let cos_theta := min ((-unit_direction).dot hr.normal) 1
        let sin_theta := Real.sqrt (1 - cos_theta * cos_theta)
        let r0 := ((1 - refraction_ratio) / (1 + refraction_ratio)) *
          ((1 - refraction_ratio) / (1 + refraction_ratio))
        some (some ⟨hr.point,
          if refraction_ratio * sin_theta > 1 ∨ r0 + (1 - r0) * (1 - cos_theta) ^ 5 > rd
          then reflect unit_direction hr.normal
          else refract unit_direction hr.normal refraction_ratio⟩,
          (⟨1, 1, 1⟩ : Color))) := by
  intro g ray hr rd
  simp only [Glass.scatter, reflectance]
  split_ifs <;> rfl

/-- C5: `Metal::scatter` returns `None` exactly when the fuzz-perturbed
reflection has non-positive dot product with the normal; otherwise it
continues from the hit point along the perturbed reflection with the
metal's albedo, and any accepted scattered direction has strictly positive
dot product with the normal (in particular for `fuzz = 0`). -/
theorem C5_metal_scatter :
    ∀ (m : Metal) (ray : Ray) (hr : HitRecord) (rp : Point3D),
      (m.scatter ray hr rp = none ↔
        (reflect ray.direction hr.normal + rp * m.fuzz).dot hr.normal ≤ 0) ∧
      ((reflect ray.direction hr.normal + rp * m.fuzz).dot hr.normal > 0 →
        m.scatter ray hr rp =
          some (some ⟨hr.point, reflect ray.direction hr.normal + rp * m.fuzz⟩, m.albedo)) ∧
      (m.fuzz = 0 → ∀ (r : Ray) (att : Color),
        m.scatter ray hr rp = some (some r, att) → r.direction.dot hr.normal > 0) := by
  intro m ray hr rp
  refine ⟨?_, ?_, ?_⟩
  · simp only [Metal.scatter]
    by_cases hgt : (reflect ray.direction hr.normal + rp * m.fuzz).dot hr.normal > 0
    · rw [if_pos hgt]
      exact iff_of_false (by simp) (not_le.mpr hgt)
    · rw [if_neg hgt]
      exact iff_of_true rfl (not_lt.mp hgt)
  · intro hgt
    simp only [Metal.scatter]
    rw [if_pos hgt]
  · intro _hfz r att hsc
    simp only [Metal.scatter] at hsc
    split_ifs at hsc with hgt
    simp only [Option.some.injEq, Prod.mk.injEq] at hsc
    obtain ⟨h1, -⟩ := hsc
    obtain rfl := h1.symm
    exact hgt

/-- Witness for C5: a head-on reflection off a flat normal is accepted. -/
theorem C5_witness :
    metalTest.scatter rayDown hrTest ⟨0, 0, 0⟩ =
      some (some ⟨hrTest.point,
        reflect rayDown.direction hrTest.normal + (⟨0, 0, 0⟩ : Point3D) * metalTest.fuzz⟩,
        metalTest.albedo) :=
  (C5_metal_scatter metalTest rayDown hrTest ⟨0, 0, 0⟩).2.1 (by
    simp [reflect, Point3D.dot, rayDown, hrTest, metalTest, Point3D.smul])

/-- C9: every continuing ray produced by any material's scatter starts at
the hit record's intersection point. -/
theorem C9_scatter_origin :
    ∀ (m : Material) (ray : Ray) (hr : HitRecord) (rp : Point3D) (rd : ℝ)
      (r : Ray) (att : Color),
      m.scatter ray hr rp rd = some (some r, att) → r.origin = hr.point := by
  intro m ray hr rp rd r att h
  cases m with
  | Lambertian l =>
    simp only [Material.scatter, Lambertian.scatter, Option.some.injEq, Prod.mk.injEq] at h
    obtain ⟨h1, -⟩ := h
    obtain rfl := h1.symm
    rfl
  | Metal mt =>
    simp only [Material.scatter, Metal.scatter] at h
    split_ifs at h with hgt
    simp only [Option.some.injEq, Prod.mk.injEq] at h
    obtain ⟨h1, -⟩ := h
    obtain rfl := h1.symm
    rfl
  | Glass g =>
    simp only [Material.scatter, Glass.scatter] at h
    split_ifs at h with hc <;>
      · simp only [Option.some.injEq, Prod.mk.injEq] at h
        obtain ⟨h1, -⟩ := h
        obtain rfl := h1.symm
        rfl
  | Texture t =>
    simp only [Material.scatter, Texture.scatter, Option.some.injEq, Prod.mk.injEq] at h
    obtain ⟨h1, -⟩ := h
    obtain rfl := h1.symm
    rfl
  | Light =>
    simp only [Material.scatter, Light.scatter, Option.some.injEq, Prod.mk.injEq] at h
    exact absurd h.1 (by simp)

/-- The concrete diffuse scatter used by the C9 witness. -/
theorem lambTest_scatter :
    Material.scatter (.Lambertian ⟨⟨0.5, 0.5, 0.5⟩⟩) rayDown hrTest ⟨0, 0, 0⟩ 0 =
      some (some ⟨⟨1, 2, 3⟩, ⟨0, 1, 0⟩⟩, ⟨0.5, 0.5, 0.5⟩) := by
  simp only [Material.scatter, Lambertian.scatter]
  rw [if_neg]
  · simp only [hrTest]
    norm_num [Point3D.add_mk, Point3D.sub_mk]
  · intro hnz
    obtain ⟨-, h2, -⟩ := hnz
    rw [show (hrTest.normal + (⟨0, 0, 0⟩ : Point3D)).y = 1 by simp [hrTest]] at h2
    rw [f64EPSILON] at h2
    norm_num at h2

/-- Witness for C9 at a concrete diffuse scatter. -/
theorem C9_witness : (⟨⟨1, 2, 3⟩, ⟨0, 1, 0⟩⟩ : Ray).origin = hrTest.point :=
  C9_scatter_origin (.Lambertian ⟨⟨0.5, 0.5, 0.5⟩⟩) rayDown hrTest ⟨0, 0, 0⟩ 0
    ⟨⟨1, 2, 3⟩, ⟨0, 1, 0⟩⟩ ⟨0.5, 0.5, 0.5⟩ lambTest_scatter

/-- Counterexample to C6: at `u = 1`, `v = 1`, `h_offset = 0` the code
leaves the rotated coordinate at `1` (it only subtracts 1 when strictly
above 1), so it reads flat texel `width` of row 0 — the first texel of the
second row — while the claimed `(u + h_offset) mod 1` lookup reads column 0
of row 0. -/
theorem C6_counterexample :
    Texture.get_albedo texTest 1 1 = ⟨70 / 255, 80 / 255, 90 / 255⟩ ∧
    claimedGetAlbedo texTest 1 1 = ⟨10 / 255, 20 / 255, 30 / 255⟩ ∧
    Texture.get_albedo texTest 1 1 ≠ claimedGetAlbedo texTest 1 1 := by
  have hcode : Texture.get_albedo texTest 1 1 = ⟨70 / 255, 80 / 255, 90 / 255⟩ := by
    rw [Texture.get_albedo]
    rw [show texTest.h_offset = 0 from rfl]
    rw [if_neg (by norm_num : ¬ (1 : ℝ) + 0 > 1)]
    have e : 3 * (Int.toNat ⌊((1 : ℝ) - 1) * ((texTest.height - 1 : ℕ) : ℝ)⌋ * texTest.width
        + Int.toNat ⌊((1 : ℝ) + 0) * (texTest.width : ℝ)⌋) = 6 := by
      norm_num [texTest]
      decide
    rw [e]
    rw [show texTest.pixels.getD 6 0 = 70 from by decide,
      show texTest.pixels.getD (6 + 1) 0 = 80 from by decide,
      show texTest.pixels.getD (6 + 2) 0 = 90 from by decide]
    norm_num
  have hclaim : claimedGetAlbedo texTest 1 1 = ⟨10 / 255, 20 / 255, 30 / 255⟩ := by
    rw [claimedGetAlbedo]
    rw [show texTest.h_offset = 0 from rfl]
    rw [show (1 : ℝ) + 0 = 1 by norm_num, Int.fract_one]
    have e : 3 * (Int.toNat ⌊((1 : ℝ) - 1) * ((texTest.height - 1 : ℕ) : ℝ)⌋ * texTest.width
        + Int.toNat ⌊(0 : ℝ) * (texTest.width : ℝ)⌋) = 0 := by
      norm_num [texTest]
    rw [e]
    rw [show texTest.pixels.getD 0 0 = 10 from by decide,
      show texTest.pixels.getD (0 + 1) 0 = 20 from by decide,
      show texTest.pixels.getD (0 + 2) 0 = 30 from by decide]
    norm_num
  refine ⟨hcode, hclaim, ?_⟩
  rw [hcode, hclaim]
  intro hcontr
  have := congrArg Color.red hcontr
  norm_num at this

/-- C6 as amended: the attenuation returned by `Texture::scatter` is the
nearest-pixel lookup `Texture::get_albedo(u, v)`, which reads the texel at
column `floor(rotate(u) * width)` and row `floor((1-v) * (height-1))` of
the flat row-major RGB buffer, each 8-bit channel divided by 255, where
`rotate(u)` is `u + h_offset` reduced by 1 only when strictly greater
than 1 (not a true `mod 1`: the value 1 itself is kept, indexing into
column `width`). -/
theorem C6_texture_lookup :
    ∀ (t : Texture) (hr : HitRecord) (rp : Point3D) (oray : Option Ray) (att : Color),
      (t.scatter hr rp = some (oray, att) → att = t.get_albedo hr.u hr.v) ∧
      ∀ u v : ℝ,
        t.get_albedo u v =
          (let rot := if u + t.h_offset > 1 then u + t.h_offset - 1 else u + t.h_offset
          let column := Int.toNat ⌊rot * (t.width : ℝ)⌋
          let row := Int.toNat ⌊(1 - v) * ((t.height - 1 : ℕ) : ℝ)⌋
          ⟨(t.pixels.getD (3 * (row * t.width + column)) 0 : ℝ) / 255,
           (t.pixels.getD (3 * (row * t.width + column) + 1) 0 : ℝ) / 255,
           (t.pixels.getD (3 * (row * t.width + column) + 2) 0 : ℝ) / 255⟩) := by
  intro t hr rp oray att
  constructor
  · intro h
    simp only [Texture.scatter, Option.some.injEq, Prod.mk.injEq] at h
    exact h.2.symm
  · intro u v
    rfl

/-- The concrete texture scatter used by the C6 witness. -/
theorem texTest_scatter :
    texTest.scatter hrTest ⟨0, 0, 0⟩ =
      some (some ⟨hrTest.point, ⟨0, 1, 0⟩⟩, texTest.get_albedo 0 0) := by
  simp only [Texture.scatter]
  rw [if_neg]
  · simp only [hrTest]
    norm_num [Point3D.add_mk, Point3D.sub_mk]
  · intro hnz
    obtain ⟨-, h2, -⟩ := hnz
    rw [show (hrTest.normal + (⟨0, 0, 0⟩ : Point3D)).y = 1 by simp [hrTest]] at h2
    rw [f64EPSILON] at h2
    norm_num at h2

theorem four_lt_f64MAX : (4 : ℝ) < f64MAX := by
  norm_num [f64MAX]

/-- Invariant of the `hit_world` fold: any returned hit parameter stays
strictly inside the original bounds. -/
theorem hitWorldAux_t_bounds {r : Ray} {t_min : ℝ} :
    ∀ (world : List Sphere) (closest : ℝ) (acc : Option HitRecord) (t_max : ℝ),
      closest ≤ t_max →
      (∀ g, acc = some g → t_min < g.t ∧ g.t < t_max) →
      ∀ h, hitWorldAux world r t_min closest acc = some h → t_min < h.t ∧ h.t < t_max := by
  intro world
  induction world with
  | nil =>
    intro closest acc t_max _ hacc h hout
    simp only [hitWorldAux] at hout
    exact hacc h hout
  | cons s rest ih =>
    intro closest acc t_max hle hacc h hout
    cases hs : s.hit r t_min closest with
    | some h2 =>
      simp only [hitWorldAux, hs] at hout
      have hb := Sphere.hit_t_between hs
      refine ih h2.t (some h2) t_max (le_trans (le_of_lt hb.2) hle) ?_ h hout
      intro g hg
      obtain rfl := Option.some_injective _ hg.symm
      exact ⟨hb.1, lt_of_lt_of_le hb.2 hle⟩
    | none =>
      simp only [hitWorldAux, hs] at hout
      exact ih closest acc t_max hle hacc h hout

/-- If every sphere rejects the ray at the given bounds, the fold keeps the
empty accumulator. -/
theorem hitWorldAux_all_none {r : Ray} {t_min : ℝ} :
    ∀ (world : List Sphere) (closest : ℝ),
      (∀ s ∈ world, s.hit r t_min closest = none) →
      hitWorldAux world r t_min closest none = none := by
  intro world
  induction world with
  | nil => intro closest _; rfl
  | cons s rest ih =>
    intro closest hall
    have hs : s.hit r t_min closest = none := hall s (List.mem_cons_self s rest)
    simp only [hitWorldAux, hs]
    exact ih closest fun s2 hs2 => hall s2 (List.mem_cons_of_mem s hs2)

/-- C10: the integrator always intersects with the fixed bounds
`t_min = 0.001`, `t_max = f64::MAX`: on a miss at those bounds `ray_color`
falls through to the sky; every accepted hit satisfies
`0.001 < t < f64::MAX`, so an intersection at `t <= 0.001` (for instance a
scattered ray immediately re-hitting its own surface) is never returned; a
sphere both of whose roots are at most `0.001` is ignored entirely. -/
theorem C10_integrator_bounds :
    (∀ (scene : Config) (ray : Ray) (lights : List Sphere) (fuel max_depth depth : ℕ)
      (rng : Rng) (path : List ℕ), 0 < depth →
      hit_world scene.objects ray 0.001 f64MAX = none →
      rayColor (fuel + 1) ray scene lights max_depth depth rng path =
        some (skyColor scene ray)) ∧
    (∀ (world : List Sphere) (r : Ray) (h : HitRecord),
      hit_world world r 0.001 f64MAX = some h → 0.001 < h.t ∧ h.t < f64MAX) ∧
    (∀ (s : Sphere) (r : Ray), 0 ≤ s.disc r →
      s.rootA r ≤ 0.001 → s.rootB r ≤ 0.001 → s.hit r 0.001 f64MAX = none) ∧
    (∀ (world : List Sphere) (r : Ray),
      (∀ s ∈ world, s.hit r 0.001 f64MAX = none) →
      hit_world world r 0.001 f64MAX = none) := by
  refine ⟨?_, ?_, ?_, ?_⟩
  · intro scene ray lights fuel max_depth depth rng path hd hnone
    simp only [rayColor, hnone]
    rw [if_neg (by omega)]
  · intro world r h hout
    exact hitWorldAux_t_bounds world f64MAX none f64MAX le_rfl
      (fun g hg => absurd hg (by simp)) h hout
  · intro s r hd hA hB
    rw [Sphere.hit_char, if_pos hd,
      if_neg (fun hc => absurd hc.2 (by linarith)),
      if_neg (fun hc => absurd hc.2 (by linarith))]
  · intro world r hall
    exact hitWorldAux_all_none world f64MAX hall

/-- The test sphere hit at the integrator bounds. -/
theorem testSphere_hit_max :
    testSphere.hit testRay 0.001 f64MAX = some (testSphere.recordAt testRay 4) := by
  rw [Sphere.hit_char, testSphere_disc, testSphere_rootA]
  rw [if_pos (by norm_num : (0 : ℝ) ≤ 1)]
  rw [if_pos (⟨four_lt_f64MAX, by norm_num⟩ : (4 : ℝ) < f64MAX ∧ (4 : ℝ) > 0.001)]

theorem hit_world_testSphere :
    hit_world [testSphere] testRay 0.001 f64MAX = some (testSphere.recordAt testRay 4) := by
  simp only [hit_world, hitWorldAux, testSphere_hit_max]

/-- Witness for C10: the test hit is strictly inside the bounds, and a ray
missing everything falls through to the sky. -/
theorem C10_witness :
    (0.001 < (testSphere.recordAt testRay 4).t ∧ (testSphere.recordAt testRay 4).t < f64MAX) ∧
    rayColor 1 testRay emptyScene [] 5 1 rng0 [] = some (skyColor emptyScene testRay) := by
  refine ⟨C10_integrator_bounds.2.1 [testSphere] testRay _ hit_world_testSphere, ?_⟩
  exact C10_integrator_bounds.1 emptyScene testRay [] 0 5 1 rng0 [] (by norm_num) rfl

theorem clamp_id {t : ℝ} (h0 : 0 ≤ t) (h1 : t ≤ 1) : clamp t = t := by
  rw [clamp, if_neg (not_lt.mpr h0), if_neg (not_lt.mpr h1)]

theorem Point3D.length_eq_sqrt (p : Point3D) : p.length = Real.sqrt p.length_squared := by
  rw [Point3D.length, Point3D.distance, Point3D.length_squared]
  congr 1
  ring

theorem Point3D.abs_y_le_length (p : Point3D) : |p.y| ≤ p.length := by
  rw [Point3D.length_eq_sqrt, ← Real.sqrt_sq_eq_abs]
  apply Real.sqrt_le_sqrt
  rw [Point3D.length_squared]
  nlinarith [sq_nonneg p.x, sq_nonneg p.z]

theorem Point3D.unit_y_bounds (p : Point3D) (h : 0 < p.length_squared) :
    -1 ≤ p.unit_vector.y ∧ p.unit_vector.y ≤ 1 := by
  have hlen : 0 < p.length := by
    rw [Point3D.length_eq_sqrt]
    exact Real.sqrt_pos.mpr h
  have habs : |p.unit_vector.y| ≤ 1 := by
    have : p.unit_vector.y = p.y / p.length := rfl
    rw [this, abs_div, abs_of_pos hlen]
    exact (div_le_one hlen).mpr (Point3D.abs_y_le_length p)
  exact abs_le.mp habs

theorem unitX : (⟨1, 0, 0⟩ : Point3D).unit_vector = ⟨1, 0, 0⟩ := by
  have hl : (⟨1, 0, 0⟩ : Point3D).length = 1 := by
    rw [Point3D.length_eq_sqrt]
    norm_num [Point3D.length_squared]
  simp [Point3D.unit_vector, hl]

theorem unitY : (⟨0, 1, 0⟩ : Point3D).unit_vector = ⟨0, 1, 0⟩ := by
  have hl : (⟨0, 1, 0⟩ : Point3D).length = 1 := by
    rw [Point3D.length_eq_sqrt]
    norm_num [Point3D.length_squared]
  simp [Point3D.unit_vector, hl]

theorem unitNegZ : (⟨0, 0, -1⟩ : Point3D).unit_vector = ⟨0, 0, -1⟩ := by
  have hl : (⟨0, 0, -1⟩ : Point3D).length = 1 := by
    rw [Point3D.length_eq_sqrt]
    norm_num [Point3D.length_squared]
  simp [Point3D.unit_vector, hl]

theorem atan2_zero_negOne : atan2 (0 : ℝ) (-1) = Real.pi := by
  rw [atan2, if_neg (by norm_num : ¬ (0 : ℝ) < -1), if_pos (by norm_num : (-1 : ℝ) < 0),
    if_pos (le_refl (0 : ℝ))]
  norm_num [Real.arctan_zero]

/-- The atan2-based surface parameterization of the direction `(0,0,-1)`:
`u = 1`, `v = 1/2`. -/
theorem uv_negZ : u_v_from_sphere_hit_point ⟨0, 0, -1⟩ = (1, 1 / 2) := by
  simp only [u_v_from_sphere_hit_point, unitNegZ]
  have h2pi : (2 : ℝ) * Real.pi ≠ 0 := by positivity
  rw [atan2_zero_negOne, Prod.mk.injEq]
  constructor
  · have h1 : Real.pi / (2 * Real.pi) = 1 / 2 := by
      rw [div_eq_iff h2pi]
      ring
    rw [h1]
    norm_num
  · norm_num

/-- The code's sky-texture lookup for the direction `(0,0,-1)` on the 3x1
sky texture: column 1, row 0. -/
theorem skyTex_code_eval :
    skyColor skyTexScene rayBack = ⟨0.7 * 40 / 255, 0.7 * 50 / 255, 0.7 * 60 / 255⟩ := by
  have hsky : skyTexScene.sky = some ⟨some ([10, 20, 30, 40, 50, 60, 70, 80, 90], 3, 1)⟩ := rfl
  have hdir : rayBack.direction = ⟨0, 0, -1⟩ := rfl
  simp only [skyColor, hsky, hdir, unitNegZ]
  rw [show clamp (0.5 * ((0 : ℝ) + 1)) = 0.5 by
    rw [clamp, if_neg (by norm_num), if_neg (by norm_num)]; norm_num]
  have ex : Int.toNat ⌊(0.5 : ℝ) * ((3 - 1 : ℕ) : ℝ)⌋ = 1 := by
    have h1 : ⌊(0.5 : ℝ) * ((3 - 1 : ℕ) : ℝ)⌋ = 1 := by norm_num
    rw [h1]
    rfl
  have ey : Int.toNat ⌊((1 : ℝ) - 0.5) * ((1 - 1 : ℕ) : ℝ)⌋ = 0 := by
    have h1 : ⌊((1 : ℝ) - 0.5) * ((1 - 1 : ℕ) : ℝ)⌋ = 0 := by norm_num
    rw [h1]
    rfl
  rw [ex, ey]
  rw [show ([10, 20, 30, 40, 50, 60, 70, 80, 90] : List ℕ).getD ((0 * 3 + 1) * 3) 0 = 40
      from by decide,
    show ([10, 20, 30, 40, 50, 60, 70, 80, 90] : List ℕ).getD ((0 * 3 + 1) * 3 + 1) 0 = 50
      from by decide,
    show ([10, 20, 30, 40, 50, 60, 70, 80, 90] : List ℕ).getD ((0 * 3 + 1) * 3 + 2) 0 = 60
      from by decide]
  norm_num

/-- The specification's atan2-based sky lookup for the same direction:
column 2, row 0 — a different texel. -/
theorem skyTex_spec_eval :
    claimedSkyColor skyTexScene rayBack = ⟨0.7 * 70 / 255, 0.7 * 80 / 255, 0.7 * 90 / 255⟩ := by
  have hsky : skyTexScene.sky = some ⟨some ([10, 20, 30, 40, 50, 60, 70, 80, 90], 3, 1)⟩ := rfl
  have hdir : rayBack.direction = ⟨0, 0, -1⟩ := rfl
  simp only [claimedSkyColor, hsky, hdir, uv_negZ]
  have ex : Int.toNat ⌊(1 : ℝ) * ((3 - 1 : ℕ) : ℝ)⌋ = 2 := by
    have h1 : ⌊(1 : ℝ) * ((3 - 1 : ℕ) : ℝ)⌋ = 2 := by norm_num
    rw [h1]
    rfl
  have ey : Int.toNat ⌊((1 : ℝ) - 1 / 2) * ((1 - 1 : ℕ) : ℝ)⌋ = 0 := by
    have h1 : ⌊((1 : ℝ) - 1 / 2) * ((1 - 1 : ℕ) : ℝ)⌋ = 0 := by norm_num
    rw [h1]
    rfl
  rw [ex, ey]
  rw [show ([10, 20, 30, 40, 50, 60, 70, 80, 90] : List ℕ).getD ((0 * 3 + 2) * 3) 0 = 70
      from by decide,
    show ([10, 20, 30, 40, 50, 60, 70, 80, 90] : List ℕ).getD ((0 * 3 + 2) * 3 + 1) 0 = 80
      from by decide,
    show ([10, 20, 30, 40, 50, 60, 70, 80, 90] : List ℕ).getD ((0 * 3 + 2) * 3 + 2) 0 = 90
      from by decide]
  norm_num

/-- Counterexample to C7: with an equirectangular sky texture configured,
the code selects the texel from `u = 0.5*(unit.x + 1)` — a linear map of
the direction's `x` component — while the claim's atan2-based sphere
parameterization selects a different texel for the direction `(0,0,-1)`. -/
theorem C7_counterexample :
    rayColor 1 rayBack skyTexScene [] 5 1 rng0 [] =
      some ⟨0.7 * 40 / 255, 0.7 * 50 / 255, 0.7 * 60 / 255⟩ ∧
    claimedSkyColor skyTexScene rayBack =
      ⟨0.7 * 70 / 255, 0.7 * 80 / 255, 0.7 * 90 / 255⟩ ∧
    (⟨0.7 * 40 / 255, 0.7 * 50 / 255, 0.7 * 60 / 255⟩ : Color) ≠
      ⟨0.7 * 70 / 255, 0.7 * 80 / 255, 0.7 * 90 / 255⟩ := by
  refine ⟨?_, skyTex_spec_eval, ?_⟩
  · have hnone : hit_world skyTexScene.objects rayBack 0.001 f64MAX = none := rfl
    simp only [rayColor, hnone]
    rw [if_neg (by norm_num), skyTex_code_eval]
  · intro hcontr
    have := congrArg Color.red hcontr
    norm_num at this

/-- C7 as amended: on a miss, `ray_color` returns black when no sky is
configured; the white-to-blue gradient with `t = 0.5*(unit_direction.y+1)`
for the default sky — so direction `(1,0,0)` yields exactly
`(0.75, 0.85, 1.0)`; and for a configured equirectangular sky texture the
texel at column `floor(clamp(0.5*(unit.x+1)) * (width-1))` and row
`floor((1 - clamp(0.5*(unit.y+1))) * (height-1))` — a linear mapping of
the unit direction's components, not the atan2-based sphere
parameterization — scaled by the fixed factor 0.7. -/
theorem C7_background :
    (∀ (scene : Config) (ray : Ray) (lights : List Sphere) (fuel max_depth depth : ℕ)
      (rng : Rng) (path : List ℕ), 0 < depth → scene.sky = none →
      hit_world scene.objects ray 0.001 f64MAX = none →
      rayColor (fuel + 1) ray scene lights max_depth depth rng path = some ⟨0, 0, 0⟩) ∧
    (∀ (scene : Config) (ray : Ray) (lights : List Sphere) (fuel max_depth depth : ℕ)
      (rng : Rng) (path : List ℕ), 0 < depth → scene.sky = some ⟨none⟩ →
      hit_world scene.objects ray 0.001 f64MAX = none →
      0 < ray.direction.length_squared →
      rayColor (fuel + 1) ray scene lights max_depth depth rng path =
        some
          (let t := 0.5 * (ray.direction.unit_vector.y + 1)
          ⟨(1 - t) * 1 + t * 0.5, (1 - t) * 1 + t * 0.7, (1 - t) * 1 + t * 1.0⟩)) ∧
    (∀ (scene : Config) (ray : Ray) (lights : List Sphere) (fuel max_depth depth : ℕ)
      (rng : Rng) (path : List ℕ) (pixels : List ℕ) (width height : ℕ),
      0 < depth → scene.sky = some ⟨some (pixels, width, height)⟩ →
      hit_world scene.objects ray 0.001 f64MAX = none →
      rayColor (fuel + 1) ray scene lights max_depth depth rng path =
        some
          (let t := clamp (0.5 * (ray.direction.unit_vector.y + 1))
          let u := clamp (0.5 * (ray.direction.unit_vector.x + 1))
          let x := Int.toNat ⌊u * ((width - 1 : ℕ) : ℝ)⌋
          let y := Int.toNat ⌊(1 - t) * ((height - 1 : ℕ) : ℝ)⌋
          ⟨0.7 * (pixels.getD ((y * width + x) * 3) 0 : ℝ) / 255,
           0.7 * (pixels.getD ((y * width + x) * 3 + 1) 0 : ℝ) / 255,
           0.7 * (pixels.getD ((y * width + x) * 3 + 2) 0 : ℝ) / 255⟩)) ∧
    rayColor 1 ⟨⟨0, 0, 0⟩, ⟨1, 0, 0⟩⟩ emptyScene [] 2 2 rng0 [] =
      some ⟨0.75, 0.85, 1.0⟩ := by
  refine ⟨?_, ?_, ?_, ?_⟩
  · intro scene ray lights fuel max_depth depth rng path hd hsky hnone
    simp only [rayColor, hnone]
    rw [if_neg (by omega)]
    simp only [skyColor, hsky]
  · intro scene ray lights fuel max_depth depth rng path hd hsky hnone hlen
    simp only [rayColor, hnone]
    rw [if_neg (by omega)]
    congr 1
    simp only [skyColor, hsky]
    obtain ⟨hb1, hb2⟩ := Point3D.unit_y_bounds ray.direction hlen
    rw [clamp_id (by linarith) (by linarith)]
  · intro scene ray lights fuel max_depth depth rng path pixels width height hd hsky hnone
    simp only [rayColor, hnone]
    rw [if_neg (by omega)]
    congr 1
    simp only [skyColor, hsky]
  · have hnone : hit_world emptyScene.objects (⟨⟨0, 0, 0⟩, ⟨1, 0, 0⟩⟩ : Ray) 0.001 f64MAX =
        none := rfl
    simp only [rayColor, hnone]
    rw [if_neg (by norm_num)]
    have hsky : emptyScene.sky = some ⟨none⟩ := rfl
    have hdir : (⟨⟨0, 0, 0⟩, ⟨1, 0, 0⟩⟩ : Ray).direction = ⟨1, 0, 0⟩ := rfl
    simp only [skyColor, hsky, hdir, unitX]
    rw [show clamp (0.5 * ((0 : ℝ) + 1)) = 0.5 by
      rw [clamp, if_neg (by norm_num), if_neg (by norm_num)]; norm_num]
    norm_num

/-- Witness for the amended C7: the gradient formula applied to the
direction `(0,1,0)` gives the pure sky-blue endpoint. -/
theorem C7_witness :
    rayColor 1 ⟨⟨0, 0, 0⟩, ⟨0, 1, 0⟩⟩ emptyScene [] 2 2 rng0 [] =
      some ⟨0.5, 0.7, 1.0⟩ := by
  have h := C7_background.2.1 emptyScene ⟨⟨0, 0, 0⟩, ⟨0, 1, 0⟩⟩ [] 0 2 2 rng0 []
    (by norm_num) rfl rfl (by norm_num [Point3D.length_squared])
  rw [h]
  have hdir : (⟨⟨0, 0, 0⟩, ⟨0, 1, 0⟩⟩ : Ray).direction = ⟨0, 1, 0⟩ := rfl
  simp only [hdir, unitY]
  norm_num

/-- With a nondegenerate ray direction the two quadratic roots come out in
ascending order. -/
theorem Sphere.rootA_le_rootB {s : Sphere} {ray : Ray}
    (ha : 0 < ray.direction.length_squared) : s.rootA ray ≤ s.rootB ray := by
  rw [Sphere.rootA, Sphere.rootB]
  exact (div_le_div_iff_of_pos_right ha).mpr (by linarith [Real.sqrt_nonneg (s.disc ray)])

/-- Shrinking the upper bound past a hit keeps the same hit. -/
theorem Sphere.hit_shrink {s : Sphere} {ray : Ray} {t_min t_max t_max' : ℝ}
    (hle : t_max' ≤ t_max) {h : HitRecord} (hh : s.hit ray t_min t_max = some h)
    (hlt : h.t < t_max') : s.hit ray t_min t_max' = some h := by
  obtain ⟨hd, hcase⟩ := Sphere.hit_cases hh
  rw [Sphere.hit_char, if_pos hd]
  rcases hcase with ⟨rfl, -, hA2⟩ | ⟨rfl, ⟨-, hB2⟩, hAn⟩
  · rw [if_pos ⟨hlt, hA2⟩]
  · rw [if_neg fun hc => hAn ⟨lt_of_lt_of_le hc.1 hle, hc.2⟩, if_pos ⟨hlt, hB2⟩]

/-- Growing the upper bound past a hit can only move the hit closer. -/
theorem Sphere.hit_grow {s : Sphere} {ray : Ray} {t_min t_max t_max' : ℝ}
    (ha : 0 < ray.direction.length_squared) (hle : t_max' ≤ t_max) {h' : HitRecord}
    (hh : s.hit ray t_min t_max' = some h') :
    ∃ h, s.hit ray t_min t_max = some h ∧ h.t ≤ h'.t := by
  obtain ⟨hd, hcase⟩ := Sphere.hit_cases hh
  have hAB : s.rootA ray ≤ s.rootB ray := Sphere.rootA_le_rootB ha
  rcases hcase with ⟨rfl, hA1, hA2⟩ | ⟨rfl, ⟨hB1, hB2⟩, -⟩
  · refine ⟨s.recordAt ray (s.rootA ray), ?_, le_refl _⟩
    rw [Sphere.hit_char, if_pos hd, if_pos ⟨lt_of_lt_of_le hA1 hle, hA2⟩]
  · by_cases hA : s.rootA ray < t_max ∧ s.rootA ray > t_min
    · refine ⟨s.recordAt ray (s.rootA ray), ?_, ?_⟩
      · rw [Sphere.hit_char, if_pos hd, if_pos hA]
      · simpa [Sphere.recordAt_t] using hAB
    · refine ⟨s.recordAt ray (s.rootB ray), ?_, le_refl _⟩
      rw [Sphere.hit_char, if_pos hd, if_neg hA, if_pos ⟨lt_of_lt_of_le hB1 hle, hB2⟩]

/-- Main invariant of the `hit_world` fold after the first accepted hit:
the final record is the current best or a later full-bounds hit, its
parameter never grows, and it is minimal against every remaining sphere's
full-bounds hit. -/
theorem hitWorldAux_min {r : Ray} (ha : 0 < r.direction.length_squared) {t_min t_max : ℝ} :
    ∀ (rest : List Sphere) (g : HitRecord), g.t ≤ t_max →
      ∀ h, hitWorldAux rest r t_min g.t (some g) = some h →
        (h = g ∨ ∃ s ∈ rest, s.hit r t_min t_max = some h) ∧ h.t ≤ g.t ∧
          ∀ s ∈ rest, ∀ h', s.hit r t_min t_max = some h' → h.t ≤ h'.t := by
  intro rest
  induction rest with
  | nil =>
    intro g hg h hout
    simp only [hitWorldAux] at hout
    obtain rfl := Option.some_injective _ hout
    exact ⟨Or.inl rfl, le_rfl, by simp⟩
  | cons s rest ih =>
    intro g hg h hout
    cases hs : s.hit r t_min g.t with
    | some h2 =>
      simp only [hitWorldAux, hs] at hout
      have hb := Sphere.hit_t_between hs
      have hcand : s.hit r t_min t_max = some h2 := by
        obtain ⟨hbig, hbig_eq, hbig_le⟩ := Sphere.hit_grow ha hg hs
        have hsh := Sphere.hit_shrink hg hbig_eq (lt_of_le_of_lt hbig_le hb.2)
        rw [hs] at hsh
        obtain rfl := Option.some_injective _ hsh
        exact hbig_eq
      obtain ⟨hmem, hle2, hmin⟩ := ih h2 (le_trans (le_of_lt hb.2) hg) h hout
      refine ⟨?_, le_trans hle2 (le_of_lt hb.2), ?_⟩
      · rcases hmem with rfl | ⟨s', hs', he⟩
        · exact Or.inr ⟨s, List.mem_cons_self s rest, hcand⟩
        · exact Or.inr ⟨s', List.mem_cons_of_mem s hs', he⟩
      · intro s' hs' h' hh'
        rcases List.mem_cons.mp hs' with rfl | hmem'
        · rw [hcand] at hh'
          obtain rfl := Option.some_injective _ hh'
          exact hle2
        · exact hmin s' hmem' h' hh'
    | none =>
      simp only [hitWorldAux, hs] at hout
      obtain ⟨hmem, hle2, hmin⟩ := ih g hg h hout
      refine ⟨?_, hle2, ?_⟩
      · rcases hmem with rfl | ⟨s', hs', he⟩
        · exact Or.inl rfl
        · exact Or.inr ⟨s', List.mem_cons_of_mem s hs', he⟩
      · intro s' hs' h' hh'
        rcases List.mem_cons.mp hs' with rfl | hmem'
        · rcases lt_or_ge h'.t g.t with hlt | hge
          · have hsh := Sphere.hit_shrink hg hh' hlt
            rw [hs] at hsh
            exact absurd hsh (by simp)
          · exact le_trans hle2 hge
        · exact hmin s' hmem' h' hh'

/-- The `hit_world` fold returns a full-bounds hit of some sphere in the
list, minimal in `t` among every sphere's full-bounds hit. -/
theorem hit_world_min {r : Ray} (ha : 0 < r.direction.length_squared) {t_min t_max : ℝ} :
    ∀ (world : List Sphere) (h : HitRecord), hit_world world r t_min t_max = some h →
      (∃ s ∈ world, s.hit r t_min t_max = some h) ∧
        ∀ s ∈ world, ∀ h', s.hit r t_min t_max = some h' → h.t ≤ h'.t := by
  intro world
  induction world with
  | nil =>
    intro h hout
    exact absurd hout (by simp [hit_world, hitWorldAux])
  | cons s rest ih =>
    intro h hout
    rw [hit_world] at hout
    cases hs : s.hit r t_min t_max with
    | some h2 =>
      simp only [hitWorldAux, hs] at hout
      have hb := Sphere.hit_t_between hs
      obtain ⟨hmem, hle2, hmin⟩ := hitWorldAux_min ha rest h2 (le_of_lt hb.2) h hout
      refine ⟨?_, ?_⟩
      · rcases hmem with rfl | ⟨s', hs', he⟩
        · exact ⟨s, List.mem_cons_self s rest, hs⟩
        · exact ⟨s', List.mem_cons_of_mem s hs', he⟩
      · intro s' hs' h' hh'
        rcases List.mem_cons.mp hs' with rfl | hmem'
        · rw [hs] at hh'
          obtain rfl := Option.some_injective _ hh'
          exact hle2
        · exact hmin s' hmem' h' hh'
    | none =>
      simp only [hitWorldAux, hs] at hout
      obtain ⟨hmem, hmin⟩ := ih h (by rw [hit_world]; exact hout)
      refine ⟨?_, ?_⟩
      · obtain ⟨s', hs', he⟩ := hmem
        exact ⟨s', List.mem_cons_of_mem s hs', he⟩
      · intro s' hs' h' hh'
        rcases List.mem_cons.mp hs' with rfl | hmem'
        · rw [hs] at hh'
          exact absurd hh' (by simp)
        · exact hmin s' hmem' h' hh'

/-- C1: a negative discriminant yields no hit; with a nondegenerate ray the
two roots are tried in ascending order and the first one strictly inside
`(t_min, t_max)` is returned, `none` if neither is; `hit_world` then
returns the accepted hit of minimum `t` across the whole list; and the test
ray from `(0,0,-5)` along `(0,0,1)` against the unit sphere hits at exactly
`t = 4`. -/
theorem C1_sphere_hit_closest :
    (∀ (s : Sphere) (ray : Ray) (t_min t_max : ℝ),
      s.disc ray < 0 → s.hit ray t_min t_max = none) ∧
    (∀ (s : Sphere) (ray : Ray), 0 < ray.direction.length_squared →
      s.rootA ray ≤ s.rootB ray) ∧
    (∀ (s : Sphere) (ray : Ray) (t_min t_max : ℝ), 0 ≤ s.disc ray →
      s.hit ray t_min t_max =
        if t_min < s.rootA ray ∧ s.rootA ray < t_max then
          some (s.recordAt ray (s.rootA ray))
        else if t_min < s.rootB ray ∧ s.rootB ray < t_max then
          some (s.recordAt ray (s.rootB ray))
        else none) ∧
    (∀ (world : List Sphere) (r : Ray) (t_min t_max : ℝ) (h : HitRecord),
      0 < r.direction.length_squared →
      hit_world world r t_min t_max = some h →
      (∃ s ∈ world, s.hit r t_min t_max = some h) ∧
        ∀ s ∈ world, ∀ h', s.hit r t_min t_max = some h' → h.t ≤ h'.t) ∧
    (testSphere.hit testRay 0 100 = some (testSphere.recordAt testRay 4) ∧
      (testSphere.recordAt testRay 4).t = 4) := by
  refine ⟨?_, ?_, ?_, ?_, testSphere_hit, rfl⟩
  · intro s ray t_min t_max hd
    rw [Sphere.hit_char, if_neg (not_le.mpr hd)]
  · intro s ray ha
    exact Sphere.rootA_le_rootB ha
  · intro s ray t_min t_max hd
    rw [Sphere.hit_char, if_pos hd]
    by_cases hA : t_min < s.rootA ray ∧ s.rootA ray < t_max
    · rw [if_pos ⟨hA.2, hA.1⟩, if_pos hA]
    · rw [if_neg fun hc => hA ⟨hc.2, hc.1⟩, if_neg hA]
      by_cases hB : t_min < s.rootB ray ∧ s.rootB ray < t_max
      · rw [if_pos ⟨hB.2, hB.1⟩, if_pos hB]
      · rw [if_neg fun hc => hB ⟨hc.2, hc.1⟩, if_neg hB]
  · intro world r t_min t_max h ha hout
    exact hit_world_min ha world h hout

/-- Witness for C1 at the one-sphere world. -/
theorem C1_witness :
    (∃ s ∈ [testSphere], s.hit testRay 0.001 f64MAX = some (testSphere.recordAt testRay 4)) ∧
      (testSphere.recordAt testRay 4).t = 4 := by
  refine ⟨(C1_sphere_hit_closest.2.2.2.1 [testSphere] testRay 0.001 f64MAX
    (testSphere.recordAt testRay 4) ?_ hit_world_testSphere).1,
    C1_sphere_hit_closest.2.2.2.2.2⟩
  rw [testRay_a]
  norm_num

theorem Point3D.ext3 {p q : Point3D} (hx : p.x = q.x) (hy : p.y = q.y) (hz : p.z = q.z) :
    p = q := by
  cases p
  cases q
  simp_all

theorem Point3D.add_sub_cancel_left (p q : Point3D) : p + q - p = q := by
  apply Point3D.ext3 <;> simp

theorem glassProb_eq (m : Material) :
    glassProb m = (match m with | .Glass _ => (0.05 : ℝ) | _ => (0.1 : ℝ)) := by
  cases m <;> rfl

/-- C3: with a hit and a non-absorbed scatter, the direct-light
contribution exists only when the lights list is non-empty, the uniform
draw exceeds `1 - light_count * prob` (`prob = 0.1`, halved to `0.05` for
a glass hit) and `depth > max_depth - 2`; when the gate fires one ray is
shot from the hit point toward each light's center and evaluated
recursively with arguments `(max_depth, depth) = (2, 1)`, the
albedo-weighted contributions are averaged over the light count, and each
channel of the final color is the clamp to `[0,1]` of the light
contribution plus albedo times the recursive scattered color. -/
theorem C3_light_sampling :
    ∀ (scene : Config) (ray : Ray) (lights : List Sphere) (fuel max_depth depth : ℕ)
      (rng : Rng) (path : List ℕ) (hit_record : HitRecord) (scattered_ray : Option Ray)
      (albedo : Color),
      2 ≤ max_depth → 0 < depth →
      hit_world scene.objects ray 0.001 f64MAX = some hit_record →
      hit_record.material.scatter ray hit_record (rng.sphere path) (rng.mat path) =
        some (scattered_ray, albedo) →
      glassProb hit_record.material =
          (match hit_record.material with | .Glass _ => (0.05 : ℝ) | _ => (0.1 : ℝ)) ∧
      rayColor (fuel + 1) ray scene lights max_depth depth rng path =
        (if 0 < lights.length ∧
            rng.gate path > 1 - (lights.length : ℝ) * glassProb hit_record.material ∧
            max_depth - 2 < depth then
          match seqMap (fun il =>
              rayColor fuel ⟨hit_record.point, il.2.center - hit_record.point⟩
                scene lights 2 1 rng (path ++ [il.1 + 1])) lights.enum with
          | none => none
          | some lcs =>
            let light_red := (lcs.map fun c => albedo.red * c.red).sum / (lights.length : ℝ)
            let light_green :=
              (lcs.map fun c => albedo.green * c.green).sum / (lights.length : ℝ)
            let light_blue :=
              (lcs.map fun c => albedo.blue * c.blue).sum / (lights.length : ℝ)
            match scattered_ray with
            | some sr =>
              match rayColor fuel sr scene lights max_depth (depth - 1) rng (path ++ [0]) with
              | none => none
              | some tc =>
                some ⟨clamp (light_red + albedo.red * tc.red),
                      clamp (light_green + albedo.green * tc.green),
                      clamp (light_blue + albedo.blue * tc.blue)⟩
            | none => some albedo
        else
          match scattered_ray with
          | some sr =>
            match rayColor fuel sr scene lights max_depth (depth - 1) rng (path ++ [0]) with
            | none => none
            | some tc =>
              some ⟨clamp (0 + albedo.red * tc.red),
                    clamp (0 + albedo.green * tc.green),
                    clamp (0 + albedo.blue * tc.blue)⟩
          | none => some albedo) := by
  intro scene ray lights fuel max_depth depth rng path hit_record scattered_ray albedo
    hmd hd hhit hscat
  refine ⟨glassProb_eq _, ?_⟩
  simp only [rayColor, hhit, hscat]
  rw [if_neg (by omega : ¬ depth ≤ 0)]

/-- The normal stored in the test hit record. -/
theorem hrT4_normal : hrT4.normal = ⟨0 / 1, 0 / 1, -1 / 1⟩ := by
  have hp : testRay.at 4 = ⟨0, 0, -1⟩ := by
    rw [Ray.at, testRay]
    norm_num
  rw [hrT4, Sphere.recordAt]
  simp only [hp, testSphere]
  norm_num [Point3D.dot, testRay]

theorem hrT4_material : hrT4.material = .Lambertian ⟨⟨0.5, 0.5, 0.5⟩⟩ := rfl

/-- The concrete diffuse scatter at the test hit. -/
theorem hrT4_scatter :
    hrT4.material.scatter testRay hrT4 ⟨0, 0, 0⟩ 0 =
      some (some ⟨hrT4.point, ⟨0 / 1 + 0, 0 / 1 + 0, -1 / 1 + 0⟩⟩, ⟨0.5, 0.5, 0.5⟩) := by
  rw [hrT4_material]
  simp only [Material.scatter, Lambertian.scatter, hrT4_normal, Point3D.add_mk]
  rw [if_neg]
  · rw [Point3D.add_sub_cancel_left]
  · intro hnz
    obtain ⟨-, -, h3⟩ := hnz
    rw [f64EPSILON] at h3
    norm_num at h3

/-- Witness for C3: one diffuse bounce with no lights terminates black. -/
theorem C3_witness : rayColor 2 testRay sceneOne [] 5 1 rng0 [] = some ⟨0, 0, 0⟩ := by
  have hwhit : hit_world sceneOne.objects testRay 0.001 f64MAX = some hrT4 :=
    hit_world_testSphere
  have h := C3_light_sampling sceneOne testRay [] 1 5 1 rng0 []
    hrT4 (some ⟨hrT4.point, ⟨0 / 1 + 0, 0 / 1 + 0, -1 / 1 + 0⟩⟩) ⟨0.5, 0.5, 0.5⟩
    (by norm_num) (by norm_num) hwhit hrT4_scatter
  show rayColor (1 + 1) testRay sceneOne [] 5 1 rng0 [] = some ⟨0, 0, 0⟩
  rw [h.2]
  rw [if_neg (by simp)]
  dsimp only
  have hz : rayColor 1 (⟨hrT4.point, ⟨0 / 1 + 0, 0 / 1 + 0, -1 / 1 + 0⟩⟩ : Ray)
      sceneOne [] 5 (1 - 1) rng0 ([] ++ [0]) = some ⟨0, 0, 0⟩ := by
    simp only [rayColor]
    rw [if_pos (by norm_num : (1 : ℕ) - 1 ≤ 0)]
  rw [hz]
  norm_num [clamp]

theorem seqMap_length {α β : Type} {f : α → Option β} :
    ∀ {l : List α} {out : List β}, seqMap f l = some out → out.length = l.length := by
  intro l
  induction l with
  | nil =>
    intro out h
    simp only [seqMap, Option.some.injEq] at h
    rw [← h]
    rfl
  | cons a as ih =>
    intro out h
    simp only [seqMap] at h
    cases hfa : f a with
    | none => rw [hfa] at h; exact absurd h (by simp)
    | some b =>
      rw [hfa] at h
      cases hrest : seqMap f as with
      | none => rw [hrest] at h; exact absurd h (by simp)
      | some bs =>
        rw [hrest] at h
        simp only [Option.some.injEq] at h
        rw [← h]
        simp [ih hrest]

theorem seqMap_mem {α β : Type} {f : α → Option β} :
    ∀ {l : List α} {out : List β}, seqMap f l = some out →
      ∀ b ∈ out, ∃ a ∈ l, f a = some b := by
  intro l
  induction l with
  | nil =>
    intro out h b hb
    simp only [seqMap, Option.some.injEq] at h
    rw [← h] at hb
    exact absurd hb (List.not_mem_nil b)
  | cons a as ih =>
    intro out h b hb
    simp only [seqMap] at h
    cases hfa : f a with
    | none => rw [hfa] at h; exact absurd h (by simp)
    | some b0 =>
      rw [hfa] at h
      cases hrest : seqMap f as with
      | none => rw [hrest] at h; exact absurd h (by simp)
      | some bs =>
        rw [hrest] at h
        simp only [Option.some.injEq] at h
        rw [← h] at hb
        rcases List.mem_cons.mp hb with rfl | hmem
        · exact ⟨a, List.mem_cons_self a as, hfa⟩
        · obtain ⟨a', ha', he⟩ := ih hrest b hmem
          exact ⟨a', List.mem_cons_of_mem a ha', he⟩

theorem seqMap_isSome {α β : Type} {f : α → Option β} :
    ∀ {l : List α}, (∀ a ∈ l, (f a).isSome) → ∃ out, seqMap f l = some out := by
  intro l
  induction l with
  | nil => intro _; exact ⟨[], rfl⟩
  | cons a as ih =>
    intro hall
    obtain ⟨b, hb⟩ := Option.isSome_iff_exists.mp (hall a (List.mem_cons_self a as))
    obtain ⟨bs, hbs⟩ := ih fun a' ha' => hall a' (List.mem_cons_of_mem a ha')
    exact ⟨b :: bs, by simp only [seqMap, hb, hbs]⟩

theorem seqMap_getD {α β : Type} {f : α → Option β} (d₁ : α) (d₂ : β) :
    ∀ {l : List α} {out : List β}, seqMap f l = some out →
      ∀ i, i < l.length → f (l.getD i d₁) = some (out.getD i d₂) := by
  intro l
  induction l with
  | nil => intro out h i hi; exact absurd hi (by simp)
  | cons a as ih =>
    intro out h i hi
    simp only [seqMap] at h
    cases hfa : f a with
    | none => rw [hfa] at h; exact absurd h (by simp)
    | some b =>
      rw [hfa] at h
      cases hrest : seqMap f as with
      | none => rw [hrest] at h; exact absurd h (by simp)
      | some bs =>
        rw [hrest] at h
        simp only [Option.some.injEq] at h
        rw [← h]
        cases i with
        | zero => simpa using hfa
        | succ i =>
          simp only [List.getD_cons_succ]
          exact ih hrest i (by simpa using hi)

theorem flatten_length_uniform (K : ℕ) :
    ∀ (ls : List (List ℕ)), (∀ r ∈ ls, r.length = K) →
      ls.flatten.length = K * ls.length := by
  intro ls
  induction ls with
  | nil => intro _; simp
  | cons r rest ih =>
    intro hall
    simp only [List.flatten_cons, List.length_append, List.length_cons]
    rw [hall r (List.mem_cons_self r rest), ih fun r' hr' => hall r' (List.mem_cons_of_mem r hr')]
    ring

theorem flatten_drop_uniform (K : ℕ) :
    ∀ (ls : List (List ℕ)) (j : ℕ), (∀ r ∈ ls, r.length = K) → j < ls.length →
      ls.flatten.drop (K * j) = ls.getD j [] ++ (ls.drop (j + 1)).flatten := by
  intro ls
  induction ls with
  | nil => intro j _ hj; exact absurd hj (by simp)
  | cons r rest ih =>
    intro j hall hj
    cases j with
    | zero => simp
    | succ j =>
      have hr : r.length = K := hall r (List.mem_cons_self r rest)
      simp only [List.flatten_cons, List.getD_cons_succ, List.drop_succ_cons]
      rw [show K * (j + 1) = r.length + K * j by rw [hr]; ring]
      rw [List.drop_append]
      exact ih j (fun r' hr' => hall r' (List.mem_cons_of_mem r hr')) (by simpa using hj)

theorem flatten_chunk (K : ℕ) (ls : List (List ℕ)) (j m n : ℕ)
    (hK : ∀ r ∈ ls, r.length = K) (hj : j < ls.length) (hmn : m + n ≤ K) :
    (ls.flatten.drop (K * j + m)).take n = ((ls.getD j []).drop m).take n := by
  have h1 : ls.flatten.drop (K * j + m) = (ls.flatten.drop (K * j)).drop m := by
    rw [List.drop_drop, Nat.add_comm]
  have hmem : ls.getD j [] ∈ ls := by
    rw [List.getD_eq_getElem ls [] hj]
    exact List.getElem_mem hj
  have hlen : (ls.getD j []).length = K := hK _ hmem
  rw [h1, flatten_drop_uniform K ls j hK hj]
  rw [List.drop_append_of_le_length (by rw [hlen]; omega)]
  rw [List.take_append_of_le_length (by rw [List.length_drop, hlen]; omega)]

theorem range_getD {n i : ℕ} (h : i < n) (d : ℕ) : (List.range n).getD i d = i := by
  rw [List.getD_eq_getElem _ _ (by simpa using h)]
  simp

theorem u8ofReal_le (v : ℝ) : u8ofReal v ≤ 255 := min_le_left _ _

/-- Destructor for `pixelBytes`: the bytes are the gamma-corrected averages
of the sampled `ray_color` values. -/
theorem pixelBytes_dest {scene : Config} {lights : List Sphere} {fuel : ℕ} {rng : Rng}
    {x y : ℕ} {px : List ℕ} (h : pixelBytes scene lights fuel rng x y = some px) :
    ∃ cs, seqMap
        (fun s =>
          let u := ((x : ℝ) + rng.j1 x y s) / ((scene.width : ℝ) - 1)
          let v := ((scene.height : ℝ) - ((y : ℝ) + rng.j2 x y s)) / ((scene.height : ℝ) - 1)
          rayColor fuel (scene.camera.get_ray u v) scene lights
            scene.max_depth scene.max_depth rng [x, y, s])
        (List.range scene.samples_per_pixel) = some cs ∧
      px = [u8ofReal (Real.sqrt ((1 / (scene.samples_per_pixel : ℝ)) * (cs.map Color.red).sum)),
            u8ofReal (Real.sqrt ((1 / (scene.samples_per_pixel : ℝ)) * (cs.map Color.green).sum)),
            u8ofReal (Real.sqrt ((1 / (scene.samples_per_pixel : ℝ)) * (cs.map Color.blue).sum))] := by
  simp only [pixelBytes] at h
  split at h
  · exact absurd h (by simp)
  · next cs hsm => exact ⟨cs, hsm, (Option.some_injective _ h).symm⟩

theorem pixelBytes_length {scene : Config} {lights : List Sphere} {fuel : ℕ} {rng : Rng}
    {x y : ℕ} {px : List ℕ} (h : pixelBytes scene lights fuel rng x y = some px) :
    px.length = 3 := by
  obtain ⟨cs, -, rfl⟩ := pixelBytes_dest h
  rfl

theorem pixelBytes_le {scene : Config} {lights : List Sphere} {fuel : ℕ} {rng : Rng}
    {x y : ℕ} {px : List ℕ} (h : pixelBytes scene lights fuel rng x y = some px) :
    ∀ b ∈ px, b ≤ 255 := by
  obtain ⟨cs, -, rfl⟩ := pixelBytes_dest h
  intro b hb
  rcases hb with _ | ⟨_, _ | ⟨_, _ | ⟨_, h0⟩⟩⟩
  · exact u8ofReal_le _
  · exact u8ofReal_le _
  · exact u8ofReal_le _
  · exact absurd h0 (List.not_mem_nil b)

/-- With no emissive objects the integrator always terminates within
`depth + 1` fuel. -/
theorem rayColor_isSome_no_lights :
    ∀ (fuel : ℕ) (ray : Ray) (scene : Config) (max_depth depth : ℕ) (rng : Rng)
      (path : List ℕ), depth < fuel →
      (rayColor fuel ray scene [] max_depth depth rng path).isSome := by
  intro fuel
  induction fuel with
  | zero => intro ray scene max_depth depth rng path hlt; omega
  | succ fuel ih =>
    intro ray scene max_depth depth rng path hlt
    by_cases hd : depth ≤ 0
    · simp only [rayColor]
      rw [if_pos hd]
      rfl
    · cases hhit : hit_world scene.objects ray 0.001 f64MAX with
      | none =>
        simp only [rayColor, hhit]
        rw [if_neg hd]
        rfl
      | some hr =>
        cases hscat : hr.material.scatter ray hr (rng.sphere path) (rng.mat path) with
        | none =>
          simp only [rayColor, hhit, hscat]
          rw [if_neg hd]
          rfl
        | some pr =>
          obtain ⟨sray, alb⟩ := pr
          cases sray with
          | none =>
            simp only [rayColor, hhit, hscat]
            rw [if_neg hd, if_neg (by simp)]
            rfl
          | some sr =>
            simp only [rayColor, hhit, hscat]
            rw [if_neg hd, if_neg (by simp)]
            cases hrc : rayColor fuel sr scene [] max_depth (depth - 1) rng (path ++ [0]) with
            | none =>
              exfalso
              have hin := ih sr scene max_depth (depth - 1) rng (path ++ [0]) (by omega)
              rw [hrc] at hin
              simp at hin
            | some tc => rfl

theorem pixelBytes_some_no_lights (scene : Config) (fuel : ℕ) (rng : Rng) (x y : ℕ)
    (hfd : scene.max_depth < fuel) : (pixelBytes scene [] fuel rng x y).isSome := by
  simp only [pixelBytes]
  split
  · next hsm =>
    obtain ⟨out, hout⟩ := seqMap_isSome (fun s _ =>
      rayColor_isSome_no_lights fuel _ scene scene.max_depth scene.max_depth rng [x, y, s] hfd)
    rw [hout] at hsm
    exact absurd hsm (by simp)
  · rfl

theorem renderRow_some_no_lights (scene : Config) (fuel : ℕ) (rng : Rng) (y : ℕ)
    (hfd : scene.max_depth < fuel) : (renderRow scene [] fuel rng y).isSome := by
  obtain ⟨pcs, hpcs⟩ := seqMap_isSome (fun x _ =>
    pixelBytes_some_no_lights scene fuel rng x y hfd)
  rw [renderRow, hpcs]
  rfl

theorem render_some_no_lights (scene : Config) (fuel : ℕ) (rng : Rng)
    (hl : find_lights scene.objects = []) (hfd : scene.max_depth < fuel) :
    ∃ buffer, render scene fuel rng = some buffer := by
  have hrow : ∀ y ∈ List.range scene.height,
      ((renderRow scene (find_lights scene.objects) fuel rng y).map List.flatten).isSome := by
    intro y _
    rw [hl]
    obtain ⟨pcs, hpcs⟩ :=
      Option.isSome_iff_exists.mp (renderRow_some_no_lights scene fuel rng y hfd)
    rw [hpcs]
    rfl
  obtain ⟨rows, hrows⟩ := seqMap_isSome hrow
  exact ⟨rows.flatten, by simp only [render, hrows]⟩

/-- Destructor for `render`: some row list sequences successfully and the
buffer is its concatenation. -/
theorem render_dest {scene : Config} {fuel : ℕ} {rng : Rng} {buffer : List ℕ}
    (h : render scene fuel rng = some buffer) :
    ∃ rows, seqMap
        (fun y => (renderRow scene (find_lights scene.objects) fuel rng y).map List.flatten)
        (List.range scene.height) = some rows ∧ buffer = rows.flatten := by
  simp only [render] at h
  split at h
  · exact absurd h (by simp)
  · next rows hsm => exact ⟨rows, hsm, (Option.some_injective _ h).symm⟩

theorem render_rows_uniform {scene : Config} {fuel : ℕ} {rng : Rng} {rows : List (List ℕ)}
    (hsm : seqMap
      (fun y => (renderRow scene (find_lights scene.objects) fuel rng y).map List.flatten)
      (List.range scene.height) = some rows) :
    ∀ r ∈ rows, r.length = 3 * scene.width := by
  intro r hr
  obtain ⟨y, -, he⟩ := seqMap_mem hsm r hr
  obtain ⟨pcs, hpcs, hflat⟩ := Option.map_eq_some'.mp he
  rw [renderRow] at hpcs
  have hpxuni : ∀ p ∈ pcs, p.length = 3 := by
    intro p hp
    obtain ⟨x', -, he'⟩ := seqMap_mem hpcs p hp
    exact pixelBytes_length he'
  rw [← hflat, flatten_length_uniform 3 pcs hpxuni, seqMap_length hpcs, List.length_range]

theorem render_length {scene : Config} {fuel : ℕ} {rng : Rng} {buffer : List ℕ}
    (h : render scene fuel rng = some buffer) :
    buffer.length = scene.width * scene.height * 3 := by
  obtain ⟨rows, hsm, rfl⟩ := render_dest h
  rw [flatten_length_uniform (3 * scene.width) rows (render_rows_uniform hsm),
    seqMap_length hsm, List.length_range]
  ring

theorem render_bytes_le {scene : Config} {fuel : ℕ} {rng : Rng} {buffer : List ℕ}
    (h : render scene fuel rng = some buffer) : ∀ b ∈ buffer, b ≤ 255 := by
  obtain ⟨rows, hsm, rfl⟩ := render_dest h
  intro b hb
  obtain ⟨r, hr, hbr⟩ := List.mem_flatten.mp hb
  obtain ⟨y, -, he⟩ := seqMap_mem hsm r hr
  obtain ⟨pcs, hpcs, hflat⟩ := Option.map_eq_some'.mp he
  rw [← hflat] at hbr
  obtain ⟨px, hpx, hbpx⟩ := List.mem_flatten.mp hbr
  rw [renderRow] at hpcs
  obtain ⟨x, -, hepx⟩ := seqMap_mem hpcs px hpx
  exact pixelBytes_le hepx b hbpx

/-- The 3-byte chunk of the buffer at pixel `(x, y)` is that pixel's
`pixelBytes` triple: the buffer is row-major with 3 bytes per pixel. -/
theorem render_chunk {scene : Config} {fuel : ℕ} {rng : Rng} {buffer : List ℕ}
    (h : render scene fuel rng = some buffer) {x y : ℕ}
    (hx : x < scene.width) (hy : y < scene.height) :
    ∃ px, pixelBytes scene (find_lights scene.objects) fuel rng x y = some px ∧
      (buffer.drop ((y * scene.width + x) * 3)).take 3 = px := by
  obtain ⟨rows, hsm, rfl⟩ := render_dest h
  have hrowslen : rows.length = scene.height := by
    rw [seqMap_length hsm, List.length_range]
  have huni := render_rows_uniform hsm
  have hyrow := seqMap_getD 0 [] hsm y (by rwa [List.length_range])
  rw [range_getD hy] at hyrow
  obtain ⟨pcs, hpcs, hflat⟩ := Option.map_eq_some'.mp hyrow
  rw [renderRow] at hpcs
  have hpcslen : pcs.length = scene.width := by
    rw [seqMap_length hpcs, List.length_range]
  have hpxuni : ∀ p ∈ pcs, p.length = 3 := by
    intro p hp
    obtain ⟨x', -, he'⟩ := seqMap_mem hpcs p hp
    exact pixelBytes_length he'
  have hxpx := seqMap_getD 0 [] hpcs x (by rwa [List.length_range])
  rw [range_getD hx] at hxpx
  refine ⟨pcs.getD x [], hxpx, ?_⟩
  have hidx : (y * scene.width + x) * 3 = 3 * scene.width * y + 3 * x := by ring
  rw [hidx,
    flatten_chunk (3 * scene.width) rows y (3 * x) 3 huni
      (by rw [hrowslen]; exact hy) (by omega),
    ← hflat]
  have hinner := flatten_chunk 3 pcs x 0 3 hpxuni (by rw [hpcslen]; exact hx) (by omega)
  simp only [Nat.add_zero, List.drop_zero] at hinner
  rw [hinner]
  have hmem : pcs.getD x [] ∈ pcs := by
    rw [List.getD_eq_getElem pcs [] (by rw [hpcslen]; exact hx)]
    exact List.getElem_mem _
  exact List.take_of_length_le (le_of_eq (hpxuni _ hmem))

/-- C8: whenever `render` completes, the pixel buffer has exactly
`width * height * 3` bytes, laid out row-major with the top image row
first and 3 bytes per pixel — the chunk at offset `(y*width + x)*3` is the
pixel `(x, y)` byte triple; each channel of a pixel is the square root of
the mean of its `samples_per_pixel` jittered `ray_color` samples converted
to an 8-bit value; and the 100x100, one-sample, depth-1 single-sphere
scene terminates and produces exactly 30000 bytes, all in `[0, 255]`. -/
theorem C8_render :
    (∀ (scene : Config) (fuel : ℕ) (rng : Rng) (buffer : List ℕ),
      render scene fuel rng = some buffer →
      buffer.length = scene.width * scene.height * 3 ∧
      (∀ x y, x < scene.width → y < scene.height →
        ∃ px, pixelBytes scene (find_lights scene.objects) fuel rng x y = some px ∧
          (buffer.drop ((y * scene.width + x) * 3)).take 3 = px) ∧
      (∀ b ∈ buffer, b ≤ 255)) ∧
    (∀ (scene : Config) (lights : List Sphere) (fuel : ℕ) (rng : Rng) (x y : ℕ)
      (px : List ℕ),
      pixelBytes scene lights fuel rng x y = some px →
      ∃ cs, seqMap
          (fun s =>
            let u := ((x : ℝ) + rng.j1 x y s) / ((scene.width : ℝ) - 1)
            let v := ((scene.height : ℝ) - ((y : ℝ) + rng.j2 x y s)) /
              ((scene.height : ℝ) - 1)
            rayColor fuel (scene.camera.get_ray u v) scene lights
              scene.max_depth scene.max_depth rng [x, y, s])
          (List.range scene.samples_per_pixel) = some cs ∧
        px =
          [u8ofReal (Real.sqrt ((1 / (scene.samples_per_pixel : ℝ)) * (cs.map Color.red).sum)),
           u8ofReal (Real.sqrt ((1 / (scene.samples_per_pixel : ℝ)) * (cs.map Color.green).sum)),
           u8ofReal (Real.sqrt ((1 / (scene.samples_per_pixel : ℝ)) *
             (cs.map Color.blue).sum))]) ∧
    (∀ rng : Rng, ∃ buffer, render scene100 2 rng = some buffer ∧
      buffer.length = 30000 ∧ ∀ b ∈ buffer, b ≤ 255) := by
  refine ⟨?_, ?_, ?_⟩
  · intro scene fuel rng buffer h
    exact ⟨render_length h, fun x y hx hy => render_chunk h hx hy, render_bytes_le h⟩
  · intro scene lights fuel rng x y px h
    exact pixelBytes_dest h
  · intro rng
    have hl : find_lights scene100.objects = [] := rfl
    obtain ⟨buffer, hbuf⟩ := render_some_no_lights scene100 2 rng hl (by decide)
    refine ⟨buffer, hbuf, ?_, render_bytes_le hbuf⟩
    rw [render_length hbuf]
    rfl

/-- Witness for C8: the concrete scene renders to a 30000-byte buffer. -/
theorem C8_witness : ∃ buffer, render scene100 2 rng0 = some buffer ∧
    buffer.length = 30000 := by
  obtain ⟨buffer, hbuf, -, -⟩ := C8_render.2.2 rng0
  have h1 := C8_render.1 scene100 2 rng0 buffer hbuf
  refine ⟨buffer, hbuf, ?_⟩
  rw [h1.1]
  rfl

/-- Witness for the amended C6 at a concrete textured scatter. -/
theorem C6_witness :
    texTest.get_albedo 0 0 = texTest.get_albedo hrTest.u hrTest.v ∧
    texTest.get_albedo 0 0 = ⟨70 / 255, 80 / 255, 90 / 255⟩ := by
  have h := C6_texture_lookup texTest hrTest ⟨0, 0, 0⟩ (some ⟨hrTest.point, ⟨0, 1, 0⟩⟩)
    (texTest.get_albedo 0 0)
  refine ⟨h.1 texTest_scatter, ?_⟩
  rw [h.2 0 0]
  rw [show texTest.h_offset = 0 from rfl]
  rw [if_neg (by norm_num : ¬ (0 : ℝ) + 0 > 1)]
  dsimp only
  have e : 3 * (Int.toNat ⌊((1 : ℝ) - 0) * ((texTest.height - 1 : ℕ) : ℝ)⌋ * texTest.width
      + Int.toNat ⌊((0 : ℝ) + 0) * (texTest.width : ℝ)⌋) = 6 := by
    norm_num [texTest]
  rw [e]
  rw [show texTest.pixels.getD 6 0 = 70 from by decide,
    show texTest.pixels.getD (6 + 1) 0 = 80 from by decide,
    show texTest.pixels.getD (6 + 2) 0 = 90 from by decide]
  norm_num

end
